import Mathlib

/-!
Verification of the Lost London VIC agent core (`src/agent/src/agent.py`,
`src/agent/src/tools.py`) against its natural-language specification.

The development shallowly embeds:
  * the query normalizer (`normalize_query` with its `PHONETIC_CORRECTIONS`
    table and Python `re.sub(r"\b<key>\b", ...)` word-boundary semantics),
  * the LRU session store (`get_session_context` over an `OrderedDict`),
  * the teaser cache lookup (`get_teaser_from_cache`),
  * the `/chat/completions` dispatch controller (`clm_endpoint`), with the
    external collaborators (Zep memory, profile DB, search engine, LLMs)
    supplied as oracle inputs and all collaborator invocations recorded as
    effect counters.
-/

/-! ### Python string primitives

Helpers mirroring the exact Python string operations the source uses:
`str.lower`, `str.strip`, `str.split()`, `str.strip(chars)`, substring
membership (`in`), `str.rfind`, slicing. All inputs relevant to the claims
are ASCII, for which `Char.toLower`/`Char.isAlpha` agree with Python. -/

/-- Python whitespace for `str.strip()` / `str.split()`. -/
def isPyWs (c : Char) : Bool :=
  c = ' ' || c = '\t' || c = '\n' || c = '\r' || c = '\x0b' || c = '\x0c'

/-- `str.strip()` on a character list. -/
def pyStripL (s : List Char) : List Char :=
  ((s.dropWhile isPyWs).reverse.dropWhile isPyWs).reverse

/-- `str.lower()` on a character list (ASCII). -/
def pyLowerL (s : List Char) : List Char :=
  s.map Char.toLower

/-- `str.strip()` on a string. -/
def pyStrip (s : String) : String :=
  ⟨pyStripL s.data⟩

/-- `str.lower()` on a string. -/
def pyLower (s : String) : String :=
  ⟨pyLowerL s.data⟩

/-- `pat.startswith` / `s.startswith(pat)` (kernel-reducible). -/
def startsW (pat s : String) : Bool :=
  pat.data.isPrefixOf s.data

/-- Character membership `c in s` (kernel-reducible). -/
def containsC (s : String) (c : Char) : Bool :=
  s.data.contains c

/-- `s.split(sep)` for a single-character separator, Python semantics. -/
def pySplitOnCharAux (c : Char) : List Char → List Char → List String
  | [], acc => [⟨acc.reverse⟩]
  | d :: rest, acc =>
    if d = c then (⟨acc.reverse⟩ : String) :: pySplitOnCharAux c rest []
    else pySplitOnCharAux c rest (d :: acc)

/-- `s.split(c)`. -/
def pySplitOnChar (c : Char) (s : String) : List String :=
  pySplitOnCharAux c s.data []

/-- `sep.join(l)` (kernel-reducible). -/
def joinWith (sep : String) : List String → String
  | [] => ""
  | [x] => x
  | x :: rest => x ++ sep ++ joinWith sep rest

/-- `str.split()` (split on whitespace runs, dropping empty pieces):
accumulator-based scan. -/
def pySplitWsAux : List Char → List Char → List String
  | [], acc => if acc.isEmpty then [] else [⟨acc.reverse⟩]
  | c :: rest, acc =>
    if isPyWs c then
      if acc.isEmpty then pySplitWsAux rest []
      else (⟨acc.reverse⟩ : String) :: pySplitWsAux rest []
    else pySplitWsAux rest (c :: acc)

/-- `str.split()` on a string. -/
def pySplitWs (s : String) : List String :=
  pySplitWsAux s.data []

/-- `" ".join(ws)`. -/
def joinSp (ws : List String) : String :=
  joinWith " " ws

/-- Python substring membership `pat in s` over character lists. -/
def isSubstrL (pat : List Char) (s : List Char) : Bool :=
  match s with
  | [] => pat.isEmpty
  | _ :: rest => pat.isPrefixOf s || isSubstrL pat rest

/-- Python substring membership `pat in s`. -/
def isSubstr (pat s : String) : Bool :=
  isSubstrL pat.data s.data

/-- `string.punctuation` from the Python standard library. -/
def pyPunctuation : List Char :=
  ['!', '"', '#', '$', '%', '&', '\'', '(', ')', '*', '+', ',', '-', '.',
   '/', ':', ';', '<', '=', '>', '?', '@', '[', '\\', ']', '^', '_', '`',
   '\x7b', '|', '\x7d', '~']

/-- `w.strip(string.punctuation)`: drop leading/trailing punctuation chars. -/
def pyStripPunct (s : String) : String :=
  ⟨((s.data.dropWhile pyPunctuation.contains).reverse.dropWhile
      pyPunctuation.contains).reverse⟩

/-- Index of the last occurrence of `c` (searching the tail first). -/
def rfindAux (c : Char) : List Char → Option Nat
  | [] => none
  | d :: rest =>
    match rfindAux c rest with
    | some i => some (i + 1)
    | none => if d = c then some 0 else none

/-- `s.rfind(c)`: greatest index of `c` in `s`, `-1` when absent. -/
def pyRfind (s : String) (c : Char) : Int :=
  match rfindAux c s.data with
  | some i => (i : Int)
  | none => -1

/-- `s[:n]` for `n ≥ 0`. -/
def pyTake (s : String) (n : Nat) : String :=
  ⟨s.data.take n⟩

/-- `s[-n:]`: the final `n` characters (whole string when shorter). -/
def pyTakeRight (s : String) (n : Nat) : String :=
  ⟨s.data.drop (s.data.length - n)⟩

/-- Python truthiness of an optional string (`None` and `""` are falsy). -/
def tS : Option String → Bool
  | none => false
  | some s => s ≠ ""

/-! ### `tools.normalize_query`

The source applies, in dict insertion order, one
`re.sub(rf"\b{re.escape(wrong)}\b", correct, s, flags=IGNORECASE)` per table
entry to the lower-cased, stripped query.  `re.sub` scans left to right,
replaces each non-overlapping match, and does not rescan replacement text
within the same pass.  A `\b` holds where exactly one adjacent character is
a word character (`[A-Za-z0-9_]` on ASCII; outside the string counts as
non-word). -/

/-- Python regex word character (ASCII). -/
def isPyWordChar (c : Char) : Bool :=
  c.isAlpha || c.isDigit || c = '_'

/-- Word-character test seen through an optional neighbour (string edge =
non-word). -/
def isWordOpt : Option Char → Bool
  | none => false
  | some c => isPyWordChar c

/-- The match test of `re.sub(r"\b<key>\b", ...)` at the current position:
the key is a literal prefix here and both `\b` boundaries hold (`prev` is
the character preceding the position in the original string). -/
def wordMatchAt (key : List Char) (prev : Option Char) (s : List Char) :
    Bool :=
  !key.isEmpty && key.isPrefixOf s
    && (isWordOpt prev != isWordOpt key.head?)
    && (isWordOpt key.getLast? != isWordOpt (List.drop key.length s).head?)

/-- One `re.sub(r"\b<key>\b", rep, ·)` pass: scan left to right with the
previous original character tracked for the leading boundary test.  After a
match the matched characters are consumed via the `skip` counter (they equal
the key, so the tracked previous character ends up as the key's last
character), which keeps the recursion structural. -/
def replAux (key rep : List Char) (prev : Option Char) (skip : Nat)
    (s : List Char) : List Char :=
  match skip, s with
  | _, [] => []
  | Nat.succ n, c :: rest => replAux key rep (some c) n rest
  | 0, c :: rest =>
    if wordMatchAt key prev (c :: rest) then
      rep ++ replAux key rep (some c) (key.length - 1) rest
    else
      c :: replAux key rep (some c) 0 rest

/-- One whole-word replacement pass over a string. -/
def replaceWord (key rep : String) (s : String) : String :=
  ⟨replAux key.data rep.data none 0 s.data⟩

/-- `PHONETIC_CORRECTIONS` from `tools.py`, in dict insertion order. -/
def PHONETIC_CORRECTIONS : List (String × String) :=
  [("ignacio", "ignatius"),
   ("ignasio", "ignatius"),
   ("ignacius", "ignatius"),
   ("ignasius", "ignatius"),
   ("victor", "vic"),
   ("viktor", "vic"),
   ("thorny", "thorney"),
   ("thornay", "thorney"),
   ("thornie", "thorney"),
   ("fawny", "thorney"),
   ("fawney", "thorney"),
   ("fauny", "thorney"),
   ("fauney", "thorney"),
   ("forney", "thorney"),
   ("forny", "thorney"),
   ("thorn ey", "thorney"),
   ("forn ey", "thorney"),
   ("fourney", "thorney"),
   ("fourny", "thorney"),
   ("forn", "thorney"),
   ("phornee", "thorney"),
   ("images of", "show me images of london history"),
   ("pictures of", "show me images of london history"),
   ("photos of", "show me images of london history"),
   ("do you have images", "show me images of thorney island"),
   ("do you have any images", "show me images of thorney island"),
   ("any images", "images of london history"),
   ("tie burn", "tyburn"),
   ("tieburn", "tyburn"),
   ("tyeburn", "tyburn"),
   ("tiburn", "tyburn"),
   ("aquarim", "aquarium"),
   ("aquariam", "aquarium"),
   ("aquareum", "aquarium"),
   ("aquaruim", "aquarium"),
   ("royale", "royal"),
   ("cristal", "crystal"),
   ("crystle", "crystal"),
   ("chrystal", "crystal"),
   ("shakespear", "shakespeare"),
   ("shakespere", "shakespeare"),
   ("shakspeare", "shakespeare"),
   ("westmister", "westminster"),
   ("westminister", "westminster"),
   ("white hall", "whitehall"),
   ("parliment", "parliament"),
   ("parlement", "parliament"),
   ("tems", "thames"),
   ("tames", "thames"),
   ("temms", "thames"),
   ("devils acre", "devil's acre"),
   ("devil acre", "devil's acre"),
   ("devils aker", "devil's acre"),
   ("voxhall", "vauxhall"),
   ("vox hall", "vauxhall"),
   ("vaux hall", "vauxhall"),
   ("southwork", "southwark"),
   ("south work", "southwark"),
   ("grenwich", "greenwich"),
   ("green witch", "greenwich"),
   ("wolwich", "woolwich"),
   ("wool witch", "woolwich"),
   ("bermondsy", "bermondsey"),
   ("holbourn", "holborn"),
   ("holeborn", "holborn"),
   ("aldwich", "aldwych"),
   ("chisick", "chiswick"),
   ("chis wick", "chiswick"),
   ("dulwitch", "dulwich"),
   ("dull witch", "dulwich")]

/-- `tools.normalize_query`: lower-case, strip, then apply every phonetic
correction as a whole-word substitution, in table order. -/
def normalize_query (s : String) : String :=
  PHONETIC_CORRECTIONS.foldl
    (fun acc p => replaceWord p.1 p.2 acc)
    (pyStrip (pyLower s))

/-! ### Session store (`agent.py` lines 48-258)

`_session_contexts` is a module-level `OrderedDict` with `MAX_SESSIONS =
100`; `get_session_context` moves an existing entry to the end (most
recently used) and, before inserting a fresh one, pops from the front while
the dict is at or above capacity.  Every state helper re-fetches the
context through `get_session_context` and mutates the returned object in
place.  The store is modelled as an association list in LRU order (least
recently used first); `OrderedDict` keys are unique, so removal of all
pairs with a given key coincides with removal of the one stored pair.  The
wall-clock field `last_interaction_time` (written, never read by the
controller) is omitted. -/

/-- Result shape of `get_user_memory` (the Zep memory collaborator): the
success dict `{found, is_returning, facts, user_name}`; both the internal
error path and an absent client yield `{found: False, is_returning: False,
facts: []}`, i.e. `user_name` absent (`none`).  `get_user_memory` never
produces an `interests` key. -/
structure MemRes where
  found : Bool := false
  is_returning : Bool := false
  facts : List String := []
  user_name : Option String := none
deriving DecidableEq

/-- `SessionContext` dataclass fields (defaults as in the source). -/
structure SessionContext where
  turns_since_name_used : Nat := 0
  name_used_in_greeting : Bool := false
  greeted_this_session : Bool := false
  last_topic : String := ""
  user_name : Option String := none
  user_context : Option MemRes := none
  context_fetched : Bool := false
  prefetched_topic : String := ""
  prefetched_content : String := ""
  prefetched_titles : List String := []
  suggestions : List String := []
  last_suggested_topic : String := ""
  conversation_history : List (String × String) := []
  current_topic_context : String := ""
deriving DecidableEq

/-- `SessionContext()` with its dataclass defaults. -/
def SessionContext.init : SessionContext := {}

/-- Dict keys of `_session_contexts`: every call site keys on the string
`session_id or "default"` except `increment_turn(session_id)`, which passes
the raw value and may key on Python `None` itself (modelled as `none`). -/
abbrev SKey := Option String

abbrev Store := List (SKey × SessionContext)

def MAX_SESSIONS : Nat := 100

def lookupS (k : SKey) (s : Store) : Option SessionContext :=
  (s.find? (fun p => decide (p.1 = k))).map (·.2)

/-- Remove the entry stored under `k` (keys are unique in an
`OrderedDict`). -/
def eraseKey (k : SKey) (s : Store) : Store :=
  s.filter (fun p => !decide (p.1 = k))

/-- `while len(_session_contexts) >= MAX_SESSIONS: popitem(last=False)`. -/
def dropToCap (s : Store) : Store :=
  if MAX_SESSIONS ≤ s.length then s.drop (s.length - (MAX_SESSIONS - 1))
  else s

/-- `get_session_context`: touch-on-access LRU with eviction on create. -/
def getOrCreate (k : SKey) (s : Store) : SessionContext × Store :=
  match lookupS k s with
  | some c => (c, eraseKey k s ++ [(k, c)])
  | none => (SessionContext.init, dropToCap s ++ [(k, SessionContext.init)])

/-- The mutation pattern of every state helper: `ctx =
get_session_context(k); ctx.field = v` — fetch (touch) then update the
stored object in place. -/
def setS (k : SKey) (f : SessionContext → SessionContext) (s : Store) :
    Store :=
  let g := getOrCreate k s
  g.2.map (fun p => if p.1 = k then (k, f g.1) else p)

/-- Field update of `mark_name_used`. -/
def SessionContext.markUsed (inGreeting : Bool) (c : SessionContext) :
    SessionContext :=
  let c1 := { c with turns_since_name_used := 0 }
  if inGreeting then
    { c1 with name_used_in_greeting := true, greeted_this_session := true }
  else c1

/-- `mark_name_used(session_id, in_greeting)`. -/
def mark_name_used (k : SKey) (inGreeting : Bool) (s : Store) : Store :=
  setS k (SessionContext.markUsed inGreeting) s

/-- Field update of `increment_turn`. -/
def SessionContext.incTurn (c : SessionContext) : SessionContext :=
  { c with turns_since_name_used := c.turns_since_name_used + 1 }

/-- `increment_turn(session_id)` — note: keyed on the raw session id. -/
def increment_turn (k : SKey) (s : Store) : Store :=
  setS k SessionContext.incTurn s

/-- Field update of `add_to_history`: truncate to 200 chars, append, keep
the last `MAX_HISTORY_TURNS * 2 = 8` entries. -/
def SessionContext.withHist (role text : String) (c : SessionContext) :
    SessionContext :=
  let truncated := if 200 < text.length then pyTake text 200 ++ "..." else text
  let h := c.conversation_history ++ [(role, truncated)]
  { c with conversation_history :=
      if 8 < h.length then h.drop (h.length - 8) else h }

/-- `add_to_history`. -/
def add_to_history (k : SKey) (role text : String) (s : Store) : Store :=
  setS k (SessionContext.withHist role text) s

/-- Field update of `set_current_topic`. -/
def SessionContext.withTopic (topic : String) (c : SessionContext) :
    SessionContext :=
  { c with current_topic_context := topic, last_topic := topic }

/-- `set_current_topic`. -/
def set_current_topic (k : SKey) (topic : String) (s : Store) : Store :=
  setS k (SessionContext.withTopic topic) s

/-- Pure part of `get_current_topic`:
`ctx.current_topic_context or ctx.last_topic or ""`. -/
def currentTopicOf (c : SessionContext) : String :=
  if c.current_topic_context ≠ "" then c.current_topic_context
  else if c.last_topic ≠ "" then c.last_topic
  else ""

/-- `get_current_topic` (touches the store). -/
def get_current_topic (k : SKey) (s : Store) : String × Store :=
  let g := getOrCreate k s
  (currentTopicOf g.1, g.2)

/-- Field update of `set_last_suggestion`. -/
def SessionContext.withSugg (topic : String) (c : SessionContext) :
    SessionContext :=
  { c with last_suggested_topic := topic,
           suggestions := c.suggestions ++ [topic] }

/-- `set_last_suggestion`. -/
def set_last_suggestion (k : SKey) (topic : String) (s : Store) : Store :=
  setS k (SessionContext.withSugg topic) s

/-- `get_last_suggestion` (returns `None` for the empty string). -/
def get_last_suggestion (k : SKey) (s : Store) : Option String × Store :=
  let g := getOrCreate k s
  (if g.1.last_suggested_topic ≠ "" then some g.1.last_suggested_topic
   else none, g.2)

/-- Field update of `cache_user_context`. -/
def SessionContext.withUserCtx (un : Option String) (uc : Option MemRes)
    (c : SessionContext) : SessionContext :=
  { c with user_name := un, user_context := uc, context_fetched := true }

/-- `cache_user_context`. -/
def cache_user_context (k : SKey) (un : Option String) (uc : Option MemRes)
    (s : Store) : Store :=
  setS k (SessionContext.withUserCtx un uc) s

/-- `get_cached_user_context` (touches the store). -/
def get_cached_user_context (k : SKey) (s : Store) :
    (Option String × Option MemRes × Bool) × Store :=
  let g := getOrCreate k s
  (if g.1.context_fetched then (g.1.user_name, g.1.user_context, true)
   else (none, none, false), g.2)

/-! ### Teaser cache (`agent.py` lines 982-1084)

`_keyword_cache` maps lowercase keyword → Pydantic-validated `TeaserData`;
it is built once at startup and read-only per request, so it enters the
model as a configuration value in dict insertion order. -/

structure TeaserData where
  id : Nat := 0
  title : String := ""
  location : Option String := none
  era : Option String := none
  hook : Option String := none
deriving DecidableEq

structure CacheConfig where
  cache_loaded : Bool := false
  keyword_cache : List (String × TeaserData) := []
deriving DecidableEq

def lookupKw (kw : String) (cache : List (String × TeaserData)) :
    Option TeaserData :=
  (cache.find? (fun p => decide (p.1 = kw))).map (·.2)

/-- `max(matching_keywords, key=len)`: Python `max` keeps the first element
of maximal length in iteration order. -/
def maxByLen : List String → Option String
  | [] => none
  | x :: xs =>
    some (xs.foldl (fun best kw =>
      if best.length < kw.length then kw else best) x)

/-- Single-word fallback scan of `get_teaser_from_cache`. -/
def firstWordHit (cache : List (String × TeaserData)) :
    List String → Option TeaserData
  | [] => none
  | w :: ws =>
    if 3 < w.length then
      match lookupKw w cache with
      | some t => some t
      | none => firstWordHit cache ws
    else firstWordHit cache ws

/-- `get_teaser_from_cache`: exact full-query match, then longest matching
multi-word keyword, then first query token of length > 3 with an exact
keyword match. -/
def get_teaser_from_cache (cfg : CacheConfig) (query : String) :
    Option TeaserData :=
  if !cfg.cache_loaded then none
  else
    let ql := pyStrip (pyLower query)
    match lookupKw ql cfg.keyword_cache with
    | some t => some t
    | none =>
      let matching := (cfg.keyword_cache.map (·.1)).filter
        (fun kw => containsC kw ' ' && isSubstr kw ql)
      match maxByLen matching with
      | some best => lookupKw best cfg.keyword_cache
      | none => firstWordHit cfg.keyword_cache (pySplitWs ql)

/-! ### `/chat/completions` controller (`clm_endpoint`, lines 1337-1910)

Transport parsing (`extract_session_id`, reading the request body) is the
caller's data and enters as a `ClmRequest`; the regex scan
`extract_user_name_from_messages` over forwarded system messages is request
data as well and enters as its result.  External collaborators (Zep graph
search, the Neon profile lookup, the search engine, the three LLM agents)
are oracle inputs; every invocation is counted in `Effects`.  Logging,
`_last_request_debug` bookkeeping, prompt assembly and SSE chunking are
presentation-only and not modelled.  The detached background prefetch
(`asyncio.create_task(load_full_article_background(...))`) is recorded as
an effect; its eventual write into `_background_results` lands outside this
request, so the racing read sees the `bg` input map. -/

structure Article where
  title : String := ""
  content : String := ""
deriving DecidableEq

/-- One `_background_results[session_key]` record. -/
structure BgEntry where
  query : String := ""
  content : String := ""
  ready : Bool := false
deriving DecidableEq

abbrev BgMap := List (String × BgEntry)

def bgLookup (k : String) (m : BgMap) : Option BgEntry :=
  (m.find? (fun p => decide (p.1 = k))).map (·.2)

def bgErase (k : String) (m : BgMap) : BgMap :=
  m.filter (fun p => !decide (p.1 = k))

structure ClmRequest where
  user_msg : String := ""
  session_id : Option String := none
  /-- Result of `extract_user_name_from_messages(messages)`. -/
  name_from_messages : Option String := none
deriving DecidableEq

structure Oracle where
  /-- `safe_get_memory()`; `none` = exception caught to `None`. -/
  memory : Option MemRes := none
  /-- `safe_get_name()` / `get_user_preferred_name`. -/
  db_name : Option String := none
  /-- `generate_fast_teaser` agent run; `none` = error → template fallback. -/
  teaser_llm : Option String := none
  /-- `detailed_agent.run` output in the pre-loaded-content branch. -/
  prefetch_llm : String := ""
  /-- `search_articles`; `none` = exception, caught by the stage. -/
  search : Option (List Article) := none
  /-- `temp_agent.run` output; `none` = exception, caught by the stage. -/
  search_llm : Option String := none
deriving DecidableEq

/-- Collaborator invocations performed while handling one request. -/
structure Effects where
  memory : Nat := 0
  profile : Nat := 0
  search : Nat := 0
  prefetch : Nat := 0
  llm : Nat := 0
  zep_store : Nat := 0
deriving DecidableEq

inductive Stage where
  | noiseTopic | noiseEmpty | easterEgg | greetFirst | greetAgain
  | nameQ | identityQ | affirmNoTarget | teaserHit | bgContent
  | searchHit | searchEmpty | searchFail
deriving DecidableEq

/-- Ghost bookkeeping mirroring `_last_request_debug`. -/
structure DebugInfo where
  sessionKey : String := "default"
  stage : Stage := Stage.noiseEmpty
  workingQuery : String := ""
  searchQuery : Option String := none
  teaserConsulted : Bool := false
  isAffirm : Bool := false
deriving DecidableEq

structure StepResult where
  store : Store
  bg : BgMap
  response : String
  effects : Effects
  debug : DebugInfo
deriving DecidableEq

/-- `extract_user_name_from_session`: session format `"name|userId"`. -/
def extract_user_name_from_session : Option String → Option String
  | none => none
  | some sid =>
    if containsC sid '|' then
      let name := (pySplitOnChar '|' sid).headD ""
      if name ≠ "" && 1 < name.length && pyLower name ≠ "anon" then some name
      else none
    else none

/-- User-id extraction (lines 1394-1398): `parts[1].split('_')[0]` when
`parts[1]` is truthy. -/
def extractUserId : Option String → Option String
  | none => none
  | some sid =>
    if sid ≠ "" && containsC sid '|' then
      let parts := pySplitOnChar '|' sid
      if 1 < parts.length then
        let p1 := parts.getD 1 ""
        if p1 ≠ "" then some ((pySplitOnChar '_' p1).headD "") else none
      else none
    else none

/-- Python `session_id or "default"`. -/
def orDefaultS : Option String → String
  | none => "default"
  | some s => if s = "" then "default" else s

/-- The session key used by every stage except `increment_turn`. -/
def mainKey (sid : Option String) : SKey := some (orDefaultS sid)

/-- `re.sub(r"\x7b[^\x7d]*\x7d", '', s)`: drop each brace group up to and
including the first closing brace; an unclosed opening brace is kept. -/
def stripBracesAux : Nat → List Char → List Char
  | Nat.succ n, _ :: rest => stripBracesAux n rest
  | _, [] => []
  | 0, c :: rest =>
    if c = '\x7b' then
      match rest.findIdx? (fun d => decide (d = '\x7d')) with
      | some i => stripBracesAux (i + 1) rest
      | none => c :: stripBracesAux 0 rest
    else c :: stripBracesAux 0 rest

def stripBraces (s : String) : String :=
  ⟨stripBracesAux 0 s.data⟩

def fillerTokens : List String :=
  ["the", "a", "an", "um", "uh", "hmm", "oh", "ah"]

/-- The noise test (lines 1479-1483): short residual, bare filler token, or
no letters at all. -/
def isNoiseB (cleanq : String) : Bool :=
  decide (cleanq.length < 3) || fillerTokens.contains (pyLower cleanq)
    || !(cleanq.data.any Char.isAlpha)

def greetTokens : List String :=
  ["hello", "hi", "hey", "hiya", "howdy", "greetings", "start"]

/-- Greeting detection (lines 1525-1530). -/
def isGreetingRequest (user_msg nlow : String) : Bool :=
  isSubstr "speak your greeting" (pyLower user_msg)
    || greetTokens.contains nlow
    || startsW "hello " nlow || startsW "hi " nlow

def name_questions : List String :=
  ["what is my name", "what's my name", "do you know my name", "who am i"]

def identity_keywords : List String :=
  ["who are you", "what are you", "your name", "about yourself",
   "books have you written", "your books", "did you write",
   "tell me about you", "introduce yourself"]

def AFFIRMATION_WORDS : List String :=
  ["yes", "yeah", "yep", "yup", "sure", "okay", "ok", "please", "aye",
   "absolutely", "definitely", "certainly", "indeed", "alright", "right"]

def AFFIRMATION_PHRASES : List String :=
  ["go on", "tell me more", "tell me", "go ahead", "yes please",
   "sure thing", "of course", "i'd like that", "i would like that",
   "sounds good", "sounds great", "let's do it", "let's hear it",
   "why not", "i'm interested", "please do"]

/-- Affirmation detection (lines 1617-1621): exact word, exact phrase, or
any phrase as a substring. -/
def isAffirmationB (nlow : String) : Bool :=
  AFFIRMATION_WORDS.contains nlow || AFFIRMATION_PHRASES.contains nlow
    || AFFIRMATION_PHRASES.any (fun p => isSubstr p nlow)

def vagueIndicators1 : List String :=
  ["it", "that", "this", "there", "they", "them", "its", "the"]

def vagueIndicators2 : List String :=
  ["it", "that", "this", "there", "they", "them", "its"]

def questionStarts : List String :=
  ["what ", "where ", "when ", "why ", "how ", "who "]

/-- Stage-1 vague-follow-up test (lines 1662-1669). -/
def vagueFollowup1 (existingTopic nq : String) : Bool :=
  let qwords := (pySplitWs nq).map (fun w => pyLower (pyStripPunct w))
  (qwords.any (fun w => vagueIndicators1.contains w))
    && decide (qwords.length < 8)
    && !(((pySplitWs (pyLower existingTopic)).take 3).any
          (fun w => isSubstr w (pyLower nq)))

/-- Stage-2 vague-follow-up test (lines 1799-1807); Python `or` binds
looser than `and`. -/
def vagueFollowup2 (nq : String) : Bool :=
  let qwords := (pySplitWs nq).map (fun w => pyLower (pyStripPunct w))
  (qwords.any (fun w => vagueIndicators2.contains w))
    || (questionStarts.any (fun p => startsW p (pyLower nq))
        && decide (qwords.length < 6))

def genericExplore : String :=
  "What would you like to explore? I've got stories about Thorney Island, the Royal Aquarium, hidden rivers, and much more."

def rosieText : String :=
  "Ah, Rosie, my loving wife! I'll be home for dinner."

def noTargetText : String :=
  "What would you like to hear about? I've got fascinating stories about Thorney Island, the Royal Aquarium, London's hidden rivers, and much more."

def identityText : String :=
  "I'm Vic Keegan, London historian and author. I've written Lost London Volume 1 and Volume 2, plus my latest book Thorney: London's Forgotten Island, about the hidden island beneath Westminster. I've been researching London's hidden history for years, and I've got 372 articles covering everything from Roman London to Victorian music halls. Would you like to hear about any particular corner of London's past?"

def noResultsText : String :=
  "I don't seem to have any articles about that in my collection. Would you like to explore something else? I've got stories about Thorney Island, the Royal Aquarium, Tyburn, and many other hidden corners of London."

def searchFailText : String :=
  "I'm having a bit of trouble searching my records at the moment. Could you try asking again?"

/-- `ctx.greeted_this_session = True` (line 1562). -/
def SessionContext.withGreeted (c : SessionContext) : SessionContext :=
  { c with greeted_this_session := true }

/-- The four greeting templates (lines 1540-1560): returns the response,
the suggestion to register, and whether `mark_name_used(in_greeting=True)`
runs.  `user_interests` mirrors `user_context.get("interests", [])`, a key
`get_user_memory` never produces, so the first branch cannot fire here. -/
def greetingBranch (uname : Option String) (uctx : Option MemRes) :
    String × Option String × Bool :=
  let isRet := match uctx with | some m => m.is_returning | none => false
  let interests : List String := []
  if isRet && tS uname && !interests.isEmpty then
    let topic := interests.headD ""
    ("Welcome back, " ++ uname.getD "" ++ "! I remember you were interested in "
      ++ topic
      ++ ". Shall we explore that further, or would you like to discover something new?",
     some topic, true)
  else if isRet && tS uname then
    ("Welcome back to Lost London, " ++ uname.getD ""
      ++ "! Lovely to hear from you again. What corner of London's hidden history shall we explore today?",
     none, true)
  else if tS uname then
    ("Welcome to Lost London, " ++ uname.getD ""
      ++ "! I'm Vic Keegan. I've spent years uncovering this city's hidden stories. Shall I tell you about Thorney Island, the mysterious island beneath Westminster?",
     some "Thorney Island", true)
  else
    ("Welcome to Lost London! I'm Vic Keegan, historian and author. I've collected over 370 stories about London's hidden history. Shall I tell you about the Royal Aquarium, Westminster's vanished pleasure palace?",
     some "Royal Aquarium", false)

/-- Template fallback of `generate_fast_teaser` on agent error. -/
def teaserFallback (t : TeaserData) : String :=
  let location := match t.location with
    | some l => if l = "" then "London" else l
    | none => "London"
  let era := match t.era with | some e => e | none => ""
  let eraStr := if era ≠ "" then " from the " ++ era ++ " era" else ""
  "Ah, " ++ t.title ++ "! A fascinating topic" ++ eraStr ++ " in " ++ location
    ++ ". Shall I tell you more?"

/-- `max(t.rfind('.'), t.rfind('!'), t.rfind('?'))`. -/
def lastBoundary (t : String) : Int :=
  max (pyRfind t '.') (max (pyRfind t '!') (pyRfind t '?'))

/-- The shared word-budget cut: join the first `keep` words and cut after
the last sentence boundary when it lies past position `minPos`. -/
def budgetCut (keep : Nat) (minPos : Int) (s : String) : String :=
  let t0 := joinSp ((pySplitWs s).take keep)
  let lp := lastBoundary t0
  if minPos < lp then pyTake t0 (lp + 1).toNat else t0

/-- `if '?' not in truncated[-30:]: truncated += followup`. -/
def maybeFollowup (followup : String) (t : String) : String :=
  if !containsC (pyTakeRight t 30) '?' then t ++ followup else t

/-- Truncation in the pre-loaded-content branch (lines 1765-1774). -/
def truncatePrefetch (s : String) : String :=
  if 80 < (pySplitWs s).length then
    maybeFollowup " Shall I tell you more?" (budgetCut 70 40 s)
  else s

/-- Truncation in the full-search branch (lines 1875-1887). -/
def truncateSearch (s : String) : String :=
  if 100 < (pySplitWs s).length then
    maybeFollowup " Would you like to know more?" (budgetCut 80 50 s)
  else s

/-- `"\n\n".join(f"## {a.title}\n{a.content[:1500]}" for a in articles[:2])`. -/
def buildContext (arts : List Article) : String :=
  joinWith "\n\n"
    ((arts.take 2).map (fun a => "## " ++ a.title ++ "\n" ++ pyTake a.content 1500))

structure FetchOut where
  store : Store
  uname : Option String
  uctx : Option MemRes
  memCalls : Nat
  profCalls : Nat
  wasCached : Bool
deriving DecidableEq

/-- Name resolution before the cache check (lines 1385-1389): session-id
name first, then the system-message scan. -/
def resolvedName (req : ClmRequest) : Option String :=
  match extract_user_name_from_session req.session_id with
  | some n => some n
  | none => req.name_from_messages

/-- The user-id slow path of the fetch stage (lines 1418-1451), applied to
the already-touched store. -/
def fetchUidBranch (req : ClmRequest) (o : Oracle) (s1 : Store) : FetchOut :=
  let uname0 := resolvedName req
  let callProfile := !tS uname0
  let memRes := o.memory
  let dbn := if callProfile then o.db_name else none
  let uname1 := match memRes with
    | some m => if tS m.user_name && !tS uname0 then m.user_name else uname0
    | none => uname0
  let uname2 := if tS dbn && !tS uname1 then dbn else uname1
  { store := cache_user_context (mainKey req.session_id) uname2 memRes s1,
    uname := uname2, uctx := memRes, memCalls := 1,
    profCalls := if callProfile then 1 else 0, wasCached := false }

/-- Lines 1384-1454: name/user-id extraction, session-cache check, and the
once-per-session memory + profile lookups (`get_user_memory` and
`get_user_preferred_name`, the latter only when no name is resolved yet). -/
def fetchStage (req : ClmRequest) (o : Oracle) (store : Store) : FetchOut :=
  let sid := req.session_id
  let uname0 := resolvedName req
  let uid := extractUserId sid
  let k := mainKey sid
  let r := get_cached_user_context k store
  if r.1.2.2 then
    let cachedName := r.1.1
    let uname := if tS cachedName && !tS uname0 then cachedName else uname0
    { store := r.2, uname := uname, uctx := r.1.2.1,
      memCalls := 0, profCalls := 0, wasCached := true }
  else if tS uid then fetchUidBranch req o r.2
  else
    { store := cache_user_context k uname0 none r.2,
      uname := uname0, uctx := none, memCalls := 0, profCalls := 0,
      wasCached := false }

/-- Pre-loaded-content branch of Stage 2 (lines 1727-1782). -/
def bgBranch (store : Store) (bg : BgMap) (req : ClmRequest) (o : Oracle)
    (k : SKey) (skey : String) (nq2 : String) (isAff : Bool) : StepResult :=
  let bg2 := bgErase skey bg
  let s5 := add_to_history k "user" req.user_msg store
  let h := getOrCreate k s5
  let ct := get_current_topic k h.2
  let resp := truncatePrefetch o.prefetch_llm
  let s8 := add_to_history k "assistant" resp ct.2
  { store := s8, bg := bg2, response := resp, effects := { llm := 1 },
    debug := { sessionKey := skey, stage := Stage.bgContent,
               workingQuery := nq2, isAffirm := isAff } }

/-- Full-search branch of Stage 2 (lines 1784-1910). -/
def searchBranch (store : Store) (bg : BgMap) (req : ClmRequest)
    (o : Oracle) (uid : Option String) (k : SKey) (skey : String)
    (nq2 : String) (isAff : Bool) : StepResult :=
  let s5 := add_to_history k "user" req.user_msg store
  let ct := get_current_topic k s5
  let ctfs := ct.1
  let vague2 := if ctfs ≠ "" then vagueFollowup2 nq2 else false
  let sq := if ctfs ≠ "" && vague2 then ctfs ++ " " ++ nq2 else nq2
  match o.search with
  | none =>
    let s7 := add_to_history k "assistant" searchFailText ct.2
    { store := s7, bg := bg, response := searchFailText,
      effects := { search := 1 },
      debug := { sessionKey := skey, stage := Stage.searchFail,
                 workingQuery := nq2, searchQuery := some sq,
                 isAffirm := isAff } }
  | some [] =>
    let s7 := add_to_history k "assistant" noResultsText ct.2
    { store := s7, bg := bg, response := noResultsText,
      effects := { search := 1 },
      debug := { sessionKey := skey, stage := Stage.searchEmpty,
                 workingQuery := nq2, searchQuery := some sq,
                 isAffirm := isAff } }
  | some (a :: _) =>
    let s6 := if ctfs = "" then set_current_topic k a.title ct.2 else ct.2
    let h := getOrCreate k s6
    let ct2 := get_current_topic k h.2
    match o.search_llm with
    | none =>
      let s7 := add_to_history k "assistant" searchFailText ct2.2
      { store := s7, bg := bg, response := searchFailText,
        effects := { search := 1, llm := 1 },
        debug := { sessionKey := skey, stage := Stage.searchFail,
                   workingQuery := nq2, searchQuery := some sq,
                   isAffirm := isAff } }
    | some out =>
      let resp := truncateSearch out
      let zs := if tS uid && 5 < req.user_msg.length then 2 else 0
      let s7 := add_to_history k "assistant" resp ct2.2
      { store := s7, bg := bg, response := resp,
        effects := { search := 1, llm := 1, zep_store := zs },
        debug := { sessionKey := skey, stage := Stage.searchHit,
                   workingQuery := nq2, searchQuery := some sq,
                   isAffirm := isAff } }

/-- Stages from `increment_turn` (line 1646) onward: stage-1 teaser
fast-path, then stage-2 dispatch.  `nq2` is the working query (possibly
replaced by the affirmation target), `skip` the `skip_to_full_response`
flag. -/
def restDispatch (cfg : CacheConfig) (store : Store) (bg : BgMap)
    (req : ClmRequest) (o : Oracle) (uid : Option String) (k : SKey)
    (skey : String) (nq2 : String) (skip : Bool) (isAff : Bool) :
    StepResult :=
  let s3 := increment_turn req.session_id store
  let et := get_current_topic k s3
  let vague1 := if et.1 ≠ "" && !skip then vagueFollowup1 et.1 nq2 else false
  let teaser := if skip || vague1 then none
    else get_teaser_from_cache cfg nq2
  match teaser with
  | some td =>
    let s5 := add_to_history k "user" req.user_msg et.2
    let s6 := set_current_topic k td.title s5
    let s7 := set_last_suggestion k td.title s6
    let resp := match o.teaser_llm with
      | some out => out
      | none => teaserFallback td
    let s8 := add_to_history k "assistant" resp s7
    { store := s8, bg := bg, response := resp,
      effects := { prefetch := 1, llm := 1 },
      debug := { sessionKey := skey, stage := Stage.teaserHit,
                 workingQuery := nq2, teaserConsulted := true,
                 isAffirm := isAff } }
  | none =>
    match bgLookup skey bg with
    | some e =>
      if e.ready then bgBranch et.2 bg req o k skey nq2 isAff
      else searchBranch et.2 bg req o uid k skey nq2 isAff
    | none => searchBranch et.2 bg req o uid k skey nq2 isAff

/-- Lines 1467-1910 of `clm_endpoint` after the user-context stage. -/
def restPipeline (cfg : CacheConfig) (store : Store) (bg : BgMap)
    (req : ClmRequest) (o : Oracle) (uname : Option String)
    (uctx : Option MemRes) : StepResult :=
  let sid := req.session_id
  let uid := extractUserId sid
  let k := mainKey sid
  let skey := orDefaultS sid
  let nq0 := normalize_query req.user_msg
  let cleanq := pyStrip (stripBraces nq0)
  if isNoiseB cleanq then
    let t := get_current_topic k store
    let ls := get_last_suggestion k t.2
    let lastT := match ls.1 with | some x => x | none => t.1
    if lastT ≠ "" then
      let resp := "Would you like to know more about " ++ lastT
        ++ ", or shall we explore something else?"
      { store := add_to_history k "assistant" resp ls.2, bg := bg,
        response := resp, effects := {},
        debug := { sessionKey := skey, stage := Stage.noiseTopic,
                   workingQuery := cleanq } }
    else
      { store := ls.2, bg := bg, response := "", effects := {},
        debug := { sessionKey := skey, stage := Stage.noiseEmpty,
                   workingQuery := cleanq } }
  else
  let nq1 := cleanq
  if isSubstr "rosie" (pyLower nq1) then
    { store := store, bg := bg, response := rosieText, effects := {},
      debug := { sessionKey := skey, stage := Stage.easterEgg,
                 workingQuery := nq1 } }
  else
  let nlow := pyStrip (pyLower nq1)
  if isGreetingRequest req.user_msg nlow then
    let g := getOrCreate k store
    if !g.1.greeted_this_session then
      let b := greetingBranch uname uctx
      let s2 := match b.2.1 with
        | some t => set_last_suggestion k t g.2
        | none => g.2
      let s3 := if b.2.2 then mark_name_used k true s2 else s2
      let s4 := setS k SessionContext.withGreeted s3
      { store := s4, bg := bg, response := b.1, effects := {},
        debug := { sessionKey := skey, stage := Stage.greetFirst,
                   workingQuery := nq1 } }
    else
      { store := g.2, bg := bg, response := genericExplore, effects := {},
        debug := { sessionKey := skey, stage := Stage.greetAgain,
                   workingQuery := nq1 } }
  else
  if name_questions.any (fun q => isSubstr q (pyLower nq1)) then
    let resp := if tS uname then
        "You're " ++ uname.getD ""
          ++ ", of course! Now, what would you like to explore in London's hidden history?"
      else "I don't believe you've told me your name yet. What should I call you?"
    { store := store, bg := bg, response := resp, effects := {},
      debug := { sessionKey := skey, stage := Stage.nameQ,
                 workingQuery := nq1 } }
  else
  if identity_keywords.any (fun q => isSubstr q (pyLower nq1)) then
    { store := store, bg := bg, response := identityText, effects := {},
      debug := { sessionKey := skey, stage := Stage.identityQ,
                 workingQuery := nq1 } }
  else
  if isAffirmationB nlow then
    let ls := get_last_suggestion k store
    match ls.1 with
    | none =>
      { store := ls.2, bg := bg, response := noTargetText, effects := {},
        debug := { sessionKey := skey, stage := Stage.affirmNoTarget,
                   workingQuery := nq1, isAffirm := true } }
    | some t => restDispatch cfg ls.2 bg req o uid k skey t true true
  else restDispatch cfg store bg req o uid k skey nq1 false false

/-- One full `clm_endpoint` request: the fetch stage supplies the user
context and is the only source of memory/profile effects. -/
def clmStep (cfg : CacheConfig) (store : Store) (bg : BgMap)
    (req : ClmRequest) (o : Oracle) : StepResult :=
  let f := fetchStage req o store
  let r := restPipeline cfg f.store bg req o f.uname f.uctx
  let e := { r.effects with memory := f.memCalls, profile := f.profCalls }
  { r with effects := e }

/-! ### Store lookup algebra -/

theorem lookupS_nil (k : SKey) : lookupS k [] = none := rfl

theorem lookupS_cons (k : SKey) (p : SKey × SessionContext) (s : Store) :
    lookupS k (p :: s) = if p.1 = k then some p.2 else lookupS k s := by
  by_cases h : p.1 = k <;> simp [lookupS, List.find?_cons, h]

theorem lookupS_append_of_none {k : SKey} {s : Store} (t : Store)
    (h : lookupS k s = none) : lookupS k (s ++ t) = lookupS k t := by
  induction s with
  | nil => rfl
  | cons p s ih =>
    rw [List.cons_append, lookupS_cons]
    rw [lookupS_cons] at h
    by_cases hp : p.1 = k
    · simp [hp] at h
    · simp only [hp, if_false] at h ⊢
      exact ih h

theorem lookupS_append_of_some {k : SKey} {s : Store} {c : SessionContext}
    (t : Store) (h : lookupS k s = some c) : lookupS k (s ++ t) = some c := by
  induction s with
  | nil => simp [lookupS] at h
  | cons p s ih =>
    rw [List.cons_append, lookupS_cons]
    rw [lookupS_cons] at h
    by_cases hp : p.1 = k
    · simpa [hp] using h
    · simp only [hp, if_false] at h ⊢
      exact ih h

theorem lookupS_eq_none_iff {k : SKey} {s : Store} :
    lookupS k s = none ↔ ∀ p ∈ s, p.1 ≠ k := by
  induction s with
  | nil => simp [lookupS]
  | cons p s ih =>
    rw [lookupS_cons]
    by_cases hp : p.1 = k <;> simp [hp, ih]

theorem lookupS_eraseKey_self (k : SKey) (s : Store) :
    lookupS k (eraseKey k s) = none := by
  rw [lookupS_eq_none_iff]
  intro p hp
  have := List.of_mem_filter hp
  simpa using this

theorem lookupS_eraseKey_ne {k k' : SKey} (h : k' ≠ k) (s : Store) :
    lookupS k (eraseKey k' s) = lookupS k s := by
  induction s with
  | nil => rfl
  | cons p s ih =>
    by_cases hp : p.1 = k'
    · have hpk : ¬ p.1 = k := by rw [hp]; exact h
      have h1 : eraseKey k' (p :: s) = eraseKey k' s := by
        simp [eraseKey, List.filter_cons, hp]
      rw [h1, lookupS_cons, if_neg hpk]
      exact ih
    · have h1 : eraseKey k' (p :: s) = p :: eraseKey k' s := by
        simp [eraseKey, List.filter_cons, hp]
      rw [h1, lookupS_cons, lookupS_cons]
      by_cases hpk : p.1 = k
      · simp [hpk]
      · simp only [hpk, if_false]
        exact ih

theorem lookupS_mapReplace_self (k : SKey) (v : SessionContext) (s : Store) :
    lookupS k (s.map (fun p => if p.1 = k then (k, v) else p))
      = (lookupS k s).map (fun _ => v) := by
  induction s with
  | nil => rfl
  | cons p s ih =>
    by_cases hp : p.1 = k
    · simp only [List.map_cons, hp, if_true]
      rw [lookupS_cons, lookupS_cons]
      simp [hp]
    · simp only [List.map_cons, hp, if_false]
      rw [lookupS_cons, lookupS_cons, if_neg hp, if_neg hp]
      exact ih

theorem lookupS_mapReplace_ne {k k' : SKey} (h : k' ≠ k) (v : SessionContext)
    (s : Store) :
    lookupS k (s.map (fun p => if p.1 = k' then (k', v) else p))
      = lookupS k s := by
  induction s with
  | nil => rfl
  | cons p s ih =>
    by_cases hp : p.1 = k'
    · simp only [List.map_cons, hp, if_true]
      rw [lookupS_cons, lookupS_cons]
      have : ¬ p.1 = k := by rw [hp]; exact h
      simp only [this, if_false, h, if_false]
      exact ih
    · simp only [List.map_cons, hp, if_false]
      rw [lookupS_cons, lookupS_cons]
      by_cases hpk : p.1 = k
      · simp [hpk]
      · simp only [hpk, if_false]
        exact ih

theorem lookupS_drop_of_none {k : SKey} {s : Store}
    (h : lookupS k s = none) (n : Nat) : lookupS k (s.drop n) = none := by
  rw [lookupS_eq_none_iff] at h ⊢
  intro p hp
  exact h p (List.mem_of_mem_drop hp)

theorem getOrCreate_of_some {k : SKey} {s : Store} {c : SessionContext}
    (h : lookupS k s = some c) :
    getOrCreate k s = (c, eraseKey k s ++ [(k, c)]) := by
  simp [getOrCreate, h]

theorem getOrCreate_of_none {k : SKey} {s : Store}
    (h : lookupS k s = none) :
    getOrCreate k s = (SessionContext.init,
      dropToCap s ++ [(k, SessionContext.init)]) := by
  simp [getOrCreate, h]

theorem lookupS_getOrCreate_of_some {k : SKey} {s : Store}
    {c : SessionContext} (h : lookupS k s = some c) :
    lookupS k (getOrCreate k s).2 = some c := by
  rw [getOrCreate_of_some h]
  rw [lookupS_append_of_none _ (lookupS_eraseKey_self k s)]
  simp [lookupS_cons]

theorem lookupS_setS_of_some {k : SKey} {s : Store} {c : SessionContext}
    (f : SessionContext → SessionContext) (h : lookupS k s = some c) :
    lookupS k (setS k f s) = some (f c) := by
  unfold setS
  rw [getOrCreate_of_some h]
  rw [lookupS_mapReplace_self]
  rw [lookupS_append_of_none _ (lookupS_eraseKey_self k s)]
  simp [lookupS_cons]

/-- The session entry sits at the end of the LRU order with no duplicate of
its key in front — the shape every `get_session_context` touch produces. -/
def AtEndP (k : SKey) (c : SessionContext) (s : Store) : Prop :=
  ∃ s₀, s = s₀ ++ [(k, c)] ∧ ∀ p ∈ s₀, p.1 ≠ k

theorem AtEndP.lookup {k : SKey} {c : SessionContext} {s : Store}
    (h : AtEndP k c s) : lookupS k s = some c := by
  obtain ⟨s₀, rfl, h₀⟩ := h
  rw [lookupS_append_of_none _ (lookupS_eq_none_iff.mpr h₀)]
  simp [lookupS_cons]

theorem eraseKey_of_atEnd {k : SKey} {c : SessionContext} {s₀ : Store}
    (h₀ : ∀ p ∈ s₀, p.1 ≠ k) : eraseKey k (s₀ ++ [(k, c)]) = s₀ := by
  unfold eraseKey
  rw [List.filter_append]
  have h1 : s₀.filter (fun p => !decide (p.1 = k)) = s₀ := by
    apply List.filter_eq_self.mpr
    intro p hp
    simp [h₀ p hp]
  have h2 : List.filter (fun p => !decide (p.1 = k)) [(k, c)] = [] := by
    simp [List.filter_cons]
  rw [h1, h2, List.append_nil]

theorem atEnd_getOrCreate_of_some {k : SKey} {s : Store} {c : SessionContext}
    (h : lookupS k s = some c) :
    (getOrCreate k s).1 = c ∧ AtEndP k c (getOrCreate k s).2 := by
  rw [getOrCreate_of_some h]
  refine ⟨rfl, eraseKey k s, rfl, ?_⟩
  intro p hp
  have := List.of_mem_filter hp
  simpa using this

theorem atEnd_getOrCreate_of_none {k : SKey} {s : Store}
    (h : lookupS k s = none) :
    AtEndP k SessionContext.init (getOrCreate k s).2 := by
  rw [getOrCreate_of_none h]
  refine ⟨dropToCap s, rfl, ?_⟩
  intro p hp
  have hnone : lookupS k (dropToCap s) = none := by
    unfold dropToCap
    split
    · exact lookupS_drop_of_none h _
    · exact h
  exact lookupS_eq_none_iff.mp hnone p hp

theorem mapReplace_of_no_key {k : SKey} {v : SessionContext} {s₀ : Store}
    (h₀ : ∀ p ∈ s₀, p.1 ≠ k) :
    s₀.map (fun p => if p.1 = k then (k, v) else p) = s₀ := by
  induction s₀ with
  | nil => rfl
  | cons p s ih =>
    have hp := h₀ p (List.mem_cons_self p s)
    simp only [List.map_cons, hp, if_false]
    rw [ih (fun q hq => h₀ q (List.mem_cons_of_mem p hq))]

theorem atEnd_setS {k : SKey} {c : SessionContext} {s : Store}
    (h : AtEndP k c s) (f : SessionContext → SessionContext) :
    AtEndP k (f c) (setS k f s) := by
  have hl := h.lookup
  obtain ⟨s₀, rfl, h₀⟩ := h
  unfold setS
  rw [getOrCreate_of_some hl]
  simp only
  rw [eraseKey_of_atEnd h₀, List.map_append, mapReplace_of_no_key h₀]
  refine ⟨s₀, ?_, h₀⟩
  simp

theorem dropToCap_atEnd {k : SKey} {c : SessionContext} {s₀ : Store}
    (h₀ : ∀ p ∈ s₀, p.1 ≠ k) :
    ∃ s₁, dropToCap (s₀ ++ [(k, c)]) = s₁ ++ [(k, c)]
      ∧ ∀ p ∈ s₁, p.1 ≠ k := by
  unfold dropToCap
  split
  · have hle : (s₀ ++ [(k, c)]).length - (MAX_SESSIONS - 1) ≤ s₀.length := by
      simp only [List.length_append, List.length_cons, List.length_nil,
        MAX_SESSIONS]
      omega
    rw [List.drop_append_of_le_length hle]
    exact ⟨_, rfl, fun p hp => h₀ p (List.mem_of_mem_drop hp)⟩
  · exact ⟨s₀, rfl, h₀⟩

theorem lookupS_getOrCreate_other {k k' : SKey} {c : SessionContext}
    {s : Store} (h : AtEndP k c s) (hne : k' ≠ k) :
    lookupS k (getOrCreate k' s).2 = some c := by
  have hl := h.lookup
  obtain ⟨s₀, rfl, h₀⟩ := h
  unfold getOrCreate
  cases hls : lookupS k' (s₀ ++ [(k, c)]) with
  | some c' =>
    simp only
    have h1 : lookupS k (eraseKey k' (s₀ ++ [(k, c)])) = some c := by
      rw [lookupS_eraseKey_ne hne]; exact hl
    exact lookupS_append_of_some _ h1
  | none =>
    simp only
    obtain ⟨s₁, heq, h₁⟩ := dropToCap_atEnd (c := c) h₀
    rw [heq, List.append_assoc]
    rw [lookupS_append_of_none _ (lookupS_eq_none_iff.mpr h₁)]
    simp [lookupS_cons]

theorem lookupS_setS_other {k k' : SKey} {c : SessionContext} {s : Store}
    (h : AtEndP k c s) (hne : k' ≠ k)
    (f : SessionContext → SessionContext) :
    lookupS k (setS k' f s) = some c := by
  unfold setS
  simp only
  rw [lookupS_mapReplace_ne hne]
  exact lookupS_getOrCreate_other h hne

/-! ### Field behaviour of the context updaters -/

@[simp] theorem withHist_fetched (r t : String) (c : SessionContext) :
    (c.withHist r t).context_fetched = c.context_fetched := rfl

@[simp] theorem withHist_greeted (r t : String) (c : SessionContext) :
    (c.withHist r t).greeted_this_session = c.greeted_this_session := rfl

@[simp] theorem withHist_sugg (r t : String) (c : SessionContext) :
    (c.withHist r t).last_suggested_topic = c.last_suggested_topic := rfl

@[simp] theorem withHist_ctc (r t : String) (c : SessionContext) :
    (c.withHist r t).current_topic_context = c.current_topic_context := rfl

@[simp] theorem withHist_lt (r t : String) (c : SessionContext) :
    (c.withHist r t).last_topic = c.last_topic := rfl

@[simp] theorem withTopic_fetched (t : String) (c : SessionContext) :
    (c.withTopic t).context_fetched = c.context_fetched := rfl

@[simp] theorem withTopic_greeted (t : String) (c : SessionContext) :
    (c.withTopic t).greeted_this_session = c.greeted_this_session := rfl

@[simp] theorem withTopic_sugg (t : String) (c : SessionContext) :
    (c.withTopic t).last_suggested_topic = c.last_suggested_topic := rfl

@[simp] theorem withTopic_ctc (t : String) (c : SessionContext) :
    (c.withTopic t).current_topic_context = t := rfl

@[simp] theorem withTopic_lt (t : String) (c : SessionContext) :
    (c.withTopic t).last_topic = t := rfl

@[simp] theorem withSugg_fetched (t : String) (c : SessionContext) :
    (c.withSugg t).context_fetched = c.context_fetched := rfl

@[simp] theorem withSugg_greeted (t : String) (c : SessionContext) :
    (c.withSugg t).greeted_this_session = c.greeted_this_session := rfl

@[simp] theorem withSugg_sugg (t : String) (c : SessionContext) :
    (c.withSugg t).last_suggested_topic = t := rfl

@[simp] theorem withSugg_ctc (t : String) (c : SessionContext) :
    (c.withSugg t).current_topic_context = c.current_topic_context := rfl

@[simp] theorem withSugg_lt (t : String) (c : SessionContext) :
    (c.withSugg t).last_topic = c.last_topic := rfl

@[simp] theorem incTurn_fetched (c : SessionContext) :
    c.incTurn.context_fetched = c.context_fetched := rfl

@[simp] theorem incTurn_greeted (c : SessionContext) :
    c.incTurn.greeted_this_session = c.greeted_this_session := rfl

@[simp] theorem incTurn_sugg (c : SessionContext) :
    c.incTurn.last_suggested_topic = c.last_suggested_topic := rfl

@[simp] theorem incTurn_ctc (c : SessionContext) :
    c.incTurn.current_topic_context = c.current_topic_context := rfl

@[simp] theorem incTurn_lt (c : SessionContext) :
    c.incTurn.last_topic = c.last_topic := rfl

@[simp] theorem markUsed_fetched (b : Bool) (c : SessionContext) :
    (c.markUsed b).context_fetched = c.context_fetched := by
  cases b <;> rfl

@[simp] theorem markUsed_true_greeted (c : SessionContext) :
    (c.markUsed true).greeted_this_session = true := rfl

@[simp] theorem markUsed_sugg (b : Bool) (c : SessionContext) :
    (c.markUsed b).last_suggested_topic = c.last_suggested_topic := by
  cases b <;> rfl

@[simp] theorem markUsed_ctc (b : Bool) (c : SessionContext) :
    (c.markUsed b).current_topic_context = c.current_topic_context := by
  cases b <;> rfl

@[simp] theorem markUsed_lt (b : Bool) (c : SessionContext) :
    (c.markUsed b).last_topic = c.last_topic := by
  cases b <;> rfl

theorem markUsed_greeted_mono (b : Bool) (c : SessionContext)
    (h : c.greeted_this_session = true) :
    (c.markUsed b).greeted_this_session = true := by
  cases b <;> simp [SessionContext.markUsed, h]

@[simp] theorem withGreeted_fetched (c : SessionContext) :
    c.withGreeted.context_fetched = c.context_fetched := rfl

@[simp] theorem withGreeted_greeted (c : SessionContext) :
    c.withGreeted.greeted_this_session = true := rfl

@[simp] theorem withGreeted_sugg (c : SessionContext) :
    c.withGreeted.last_suggested_topic = c.last_suggested_topic := rfl

@[simp] theorem withGreeted_ctc (c : SessionContext) :
    c.withGreeted.current_topic_context = c.current_topic_context := rfl

@[simp] theorem withGreeted_lt (c : SessionContext) :
    c.withGreeted.last_topic = c.last_topic := rfl

@[simp] theorem withUserCtx_fetched (un : Option String) (uc : Option MemRes)
    (c : SessionContext) : (c.withUserCtx un uc).context_fetched = true := rfl

@[simp] theorem withUserCtx_greeted (un : Option String) (uc : Option MemRes)
    (c : SessionContext) :
    (c.withUserCtx un uc).greeted_this_session = c.greeted_this_session := rfl

@[simp] theorem withUserCtx_sugg (un : Option String) (uc : Option MemRes)
    (c : SessionContext) :
    (c.withUserCtx un uc).last_suggested_topic = c.last_suggested_topic := rfl

@[simp] theorem withUserCtx_ctc (un : Option String) (uc : Option MemRes)
    (c : SessionContext) :
    (c.withUserCtx un uc).current_topic_context = c.current_topic_context := rfl

@[simp] theorem withUserCtx_lt (un : Option String) (uc : Option MemRes)
    (c : SessionContext) :
    (c.withUserCtx un uc).last_topic = c.last_topic := rfl

@[simp] theorem withUserCtx_uname (un : Option String) (uc : Option MemRes)
    (c : SessionContext) : (c.withUserCtx un uc).user_name = un := rfl

@[simp] theorem withUserCtx_uctx (un : Option String) (uc : Option MemRes)
    (c : SessionContext) : (c.withUserCtx un uc).user_context = uc := rfl

/-! ### Transport of the LRU position through the controller's helpers -/

theorem atEnd_getOrCreate {k : SKey} {c : SessionContext} {s : Store}
    (h : AtEndP k c s) :
    (getOrCreate k s).1 = c ∧ AtEndP k c (getOrCreate k s).2 :=
  atEnd_getOrCreate_of_some h.lookup

theorem atEnd_add_to_history {k : SKey} {c : SessionContext} {s : Store}
    (h : AtEndP k c s) (r t : String) :
    AtEndP k (c.withHist r t) (add_to_history k r t s) :=
  atEnd_setS h _

theorem atEnd_set_current_topic {k : SKey} {c : SessionContext} {s : Store}
    (h : AtEndP k c s) (t : String) :
    AtEndP k (c.withTopic t) (set_current_topic k t s) :=
  atEnd_setS h _

theorem atEnd_set_last_suggestion {k : SKey} {c : SessionContext} {s : Store}
    (h : AtEndP k c s) (t : String) :
    AtEndP k (c.withSugg t) (set_last_suggestion k t s) :=
  atEnd_setS h _

theorem atEnd_mark_name_used {k : SKey} {c : SessionContext} {s : Store}
    (h : AtEndP k c s) (b : Bool) :
    AtEndP k (c.markUsed b) (mark_name_used k b s) :=
  atEnd_setS h _

theorem atEnd_get_current_topic {k : SKey} {c : SessionContext} {s : Store}
    (h : AtEndP k c s) :
    (get_current_topic k s).1 = currentTopicOf c
      ∧ AtEndP k c (get_current_topic k s).2 := by
  obtain ⟨h1, h2⟩ := atEnd_getOrCreate h
  refine ⟨?_, h2⟩
  simp [get_current_topic, h1]

theorem atEnd_get_last_suggestion {k : SKey} {c : SessionContext} {s : Store}
    (h : AtEndP k c s) :
    (get_last_suggestion k s).1
        = (if c.last_suggested_topic ≠ "" then some c.last_suggested_topic
           else none)
      ∧ AtEndP k c (get_last_suggestion k s).2 := by
  obtain ⟨h1, h2⟩ := atEnd_getOrCreate h
  refine ⟨?_, h2⟩
  simp only [get_last_suggestion, h1]

theorem atEnd_increment_turn {k : SKey} {c : SessionContext} {s : Store}
    (h : AtEndP k c s) (k' : SKey) :
    lookupS k (increment_turn k' s)
      = some (if k' = k then c.incTurn else c) := by
  by_cases hk : k' = k
  · subst hk
    rw [if_pos rfl]
    exact (atEnd_setS h _).lookup
  · rw [if_neg hk]
    exact lookupS_setS_other h hk _

theorem topicRead_of_some {k : SKey} {c : SessionContext} {s : Store}
    (h : lookupS k s = some c) :
    (get_current_topic k s).1 = currentTopicOf c
      ∧ AtEndP k c (get_current_topic k s).2 := by
  obtain ⟨h1, h2⟩ := atEnd_getOrCreate_of_some h
  refine ⟨?_, h2⟩
  simp [get_current_topic, h1]

/-- `Q` survives every context update the controller can perform. -/
def StepMono (Q : SessionContext → Bool) : Prop :=
  (∀ r t c, Q c = true → Q (c.withHist r t) = true)
  ∧ (∀ t c, Q c = true → Q (c.withTopic t) = true)
  ∧ (∀ t c, Q c = true → Q (c.withSugg t) = true)
  ∧ (∀ c, Q c = true → Q c.incTurn = true)
  ∧ (∀ b c, Q c = true → Q (c.markUsed b) = true)
  ∧ (∀ c, Q c = true → Q c.withGreeted = true)
  ∧ (∀ un uc c, Q c = true → Q (c.withUserCtx un uc) = true)

theorem searchBranch_mono {Q : SessionContext → Bool} (hQ : StepMono Q)
    {k : SKey} {c : SessionContext} {store : Store}
    (h : AtEndP k c store) (hc : Q c = true)
    (bg : BgMap) (req : ClmRequest) (o : Oracle) (uid : Option String)
    (skey nq2 : String) (aff : Bool) :
    ∀ c', lookupS k
        (searchBranch store bg req o uid k skey nq2 aff).store = some c' →
      Q c' = true := by
  obtain ⟨hH, hT, hS, hI, hM, hG, hU⟩ := hQ
  intro c' hc'
  unfold searchBranch at hc'
  have h5 := atEnd_add_to_history h "user" req.user_msg
  have hq5 := hH "user" req.user_msg c hc
  obtain ⟨hv, h6⟩ := atEnd_get_current_topic h5
  simp only at hc'
  cases hsr : o.search with
  | none =>
    rw [hsr] at hc'
    simp only at hc'
    rw [(atEnd_add_to_history h6 "assistant" searchFailText).lookup] at hc'
    cases hc'
    exact hH _ _ _ hq5
  | some arts =>
    rw [hsr] at hc'
    cases arts with
    | nil =>
      simp only at hc'
      rw [(atEnd_add_to_history h6 "assistant" noResultsText).lookup] at hc'
      cases hc'
      exact hH _ _ _ hq5
    | cons a rest =>
      simp only at hc'
      by_cases hct : (get_current_topic k (add_to_history k "user"
          req.user_msg store)).1 = ""
      · rw [if_pos hct] at hc'
        have h7 := atEnd_set_current_topic h6 a.title
        have hq7 := hT a.title _ hq5
        obtain ⟨_, h8⟩ := atEnd_getOrCreate h7
        obtain ⟨_, h9⟩ := atEnd_get_current_topic h8
        cases hsl : o.search_llm with
        | none =>
          rw [hsl] at hc'
          simp only at hc'
          rw [(atEnd_add_to_history h9 "assistant" searchFailText).lookup]
            at hc'
          cases hc'
          exact hH _ _ _ hq7
        | some out =>
          rw [hsl] at hc'
          simp only at hc'
          rw [(atEnd_add_to_history h9 "assistant"
            (truncateSearch out)).lookup] at hc'
          cases hc'
          exact hH _ _ _ hq7
      · rw [if_neg hct] at hc'
        obtain ⟨_, h8⟩ := atEnd_getOrCreate h6
        obtain ⟨_, h9⟩ := atEnd_get_current_topic h8
        cases hsl : o.search_llm with
        | none =>
          rw [hsl] at hc'
          simp only at hc'
          rw [(atEnd_add_to_history h9 "assistant" searchFailText).lookup]
            at hc'
          cases hc'
          exact hH _ _ _ hq5
        | some out =>
          rw [hsl] at hc'
          simp only at hc'
          rw [(atEnd_add_to_history h9 "assistant"
            (truncateSearch out)).lookup] at hc'
          cases hc'
          exact hH _ _ _ hq5

theorem bgBranch_mono {Q : SessionContext → Bool} (hQ : StepMono Q)
    {k : SKey} {c : SessionContext} {store : Store}
    (h : AtEndP k c store) (hc : Q c = true)
    (bg : BgMap) (req : ClmRequest) (o : Oracle) (skey nq2 : String)
    (aff : Bool) :
    ∀ c', lookupS k (bgBranch store bg req o k skey nq2 aff).store = some c' →
      Q c' = true := by
  obtain ⟨hH, hT, hS, hI, hM, hG, hU⟩ := hQ
  intro c' hc'
  unfold bgBranch at hc'
  simp only at hc'
  have h5 := atEnd_add_to_history h "user" req.user_msg
  obtain ⟨_, h6⟩ := atEnd_getOrCreate h5
  obtain ⟨_, h7⟩ := atEnd_get_current_topic h6
  rw [(atEnd_add_to_history h7 "assistant"
    (truncatePrefetch o.prefetch_llm)).lookup] at hc'
  cases hc'
  exact hH _ _ _ (hH _ _ _ hc)

theorem restDispatch_mono {Q : SessionContext → Bool} (hQ : StepMono Q)
    {k : SKey} {c : SessionContext} {store : Store}
    (h : AtEndP k c store) (hc : Q c = true)
    (cfg : CacheConfig) (bg : BgMap) (req : ClmRequest) (o : Oracle)
    (uid : Option String) (skey nq2 : String) (skip aff : Bool) :
    ∀ c', lookupS k
        (restDispatch cfg store bg req o uid k skey nq2 skip aff).store
          = some c' → Q c' = true := by
  intro c' hc'
  unfold restDispatch at hc'
  simp only at hc'
  have h3 := atEnd_increment_turn h req.session_id
  set c1 := if req.session_id = k then c.incTurn else c with hc1def
  have hq1 : Q c1 = true := by
    rw [hc1def]
    split
    · exact hQ.2.2.2.1 c hc
    · exact hc
  obtain ⟨_, h4⟩ := topicRead_of_some h3
  cases hteaser : (if (skip || (if ((get_current_topic k
      (increment_turn req.session_id store)).1 ≠ "" && !skip) then
        vagueFollowup1 (get_current_topic k
          (increment_turn req.session_id store)).1 nq2 else false)) then none
      else get_teaser_from_cache cfg nq2) with
  | some td =>
    rw [hteaser] at hc'
    simp only at hc'
    have h5 := atEnd_add_to_history h4 "user" req.user_msg
    have h6 := atEnd_set_current_topic h5 td.title
    have h7 := atEnd_set_last_suggestion h6 td.title
    rw [(atEnd_add_to_history h7 "assistant" _).lookup] at hc'
    cases hc'
    exact hQ.1 _ _ _ (hQ.2.2.1 _ _ (hQ.2.1 _ _ (hQ.1 _ _ _ hq1)))
  | none =>
    rw [hteaser] at hc'
    simp only at hc'
    cases hbg : bgLookup skey bg with
    | some e =>
      rw [hbg] at hc'
      simp only at hc'
      by_cases hrdy : e.ready
      · rw [if_pos hrdy] at hc'
        exact bgBranch_mono ⟨hQ.1, hQ.2.1, hQ.2.2.1, hQ.2.2.2.1,
          hQ.2.2.2.2.1, hQ.2.2.2.2.2.1, hQ.2.2.2.2.2.2⟩ h4 hq1
          bg req o skey nq2 aff c' hc'
      · rw [if_neg hrdy] at hc'
        exact searchBranch_mono hQ h4 hq1 bg req o uid skey nq2 aff c' hc'
    | none =>
      rw [hbg] at hc'
      exact searchBranch_mono hQ h4 hq1 bg req o uid skey nq2 aff c' hc'

theorem restPipeline_mono {Q : SessionContext → Bool} (hQ : StepMono Q)
    {c : SessionContext} {store : Store}
    (cfg : CacheConfig) (bg : BgMap) (req : ClmRequest) (o : Oracle)
    (uname : Option String) (uctx : Option MemRes)
    (h : AtEndP (mainKey req.session_id) c store) (hc : Q c = true) :
    ∀ c', lookupS (mainKey req.session_id)
        (restPipeline cfg store bg req o uname uctx).store = some c' →
      Q c' = true := by
  intro c' hc'
  unfold restPipeline at hc'
  simp only at hc'
  split at hc'
  · -- noise branch
    obtain ⟨_, ht⟩ := atEnd_get_current_topic h
    obtain ⟨_, hls⟩ := atEnd_get_last_suggestion ht
    split at hc'
    · rw [(atEnd_add_to_history hls "assistant" _).lookup] at hc'
      cases hc'
      exact hQ.1 _ _ _ hc
    · rw [hls.lookup] at hc'
      cases hc'
      exact hc
  · split at hc'
    · -- easter egg: store unchanged
      rw [h.lookup] at hc'
      cases hc'
      exact hc
    · split at hc'
      · -- greeting
        obtain ⟨hg1, hg2⟩ := atEnd_getOrCreate h
        split at hc'
        · -- not yet greeted
          cases hb : (greetingBranch uname uctx).2.1 with
          | some t =>
            rw [hb] at hc'
            simp only at hc'
            have h2 := atEnd_set_last_suggestion hg2 t
            by_cases hm : (greetingBranch uname uctx).2.2
            · rw [if_pos hm] at hc'
              have h3 := atEnd_mark_name_used h2 true
              rw [((atEnd_setS h3 SessionContext.withGreeted).lookup)] at hc'
              cases hc'
              exact hQ.2.2.2.2.2.1 _
                (hQ.2.2.2.2.1 _ _ (hQ.2.2.1 _ _ hc))
            · rw [if_neg hm] at hc'
              rw [((atEnd_setS h2 SessionContext.withGreeted).lookup)] at hc'
              cases hc'
              exact hQ.2.2.2.2.2.1 _ (hQ.2.2.1 _ _ hc)
          | none =>
            rw [hb] at hc'
            simp only at hc'
            by_cases hm : (greetingBranch uname uctx).2.2
            · rw [if_pos hm] at hc'
              have h3 := atEnd_mark_name_used hg2 true
              rw [((atEnd_setS h3 SessionContext.withGreeted).lookup)] at hc'
              cases hc'
              exact hQ.2.2.2.2.2.1 _ (hQ.2.2.2.2.1 _ _ hc)
            · rw [if_neg hm] at hc'
              rw [((atEnd_setS hg2 SessionContext.withGreeted).lookup)] at hc'
              cases hc'
              exact hQ.2.2.2.2.2.1 _ hc
        · -- already greeted: store = g.2
          rw [hg2.lookup] at hc'
          cases hc'
          exact hc
      · split at hc'
        · -- own-name question: store unchanged
          rw [h.lookup] at hc'
          cases hc'
          exact hc
        · split at hc'
          · -- identity question: store unchanged
            rw [h.lookup] at hc'
            cases hc'
            exact hc
          · split at hc'
            · -- affirmation
              obtain ⟨_, hls⟩ :=
                atEnd_get_last_suggestion (c := c) (s := store) h
              split at hc'
              · -- no stored suggestion
                rw [hls.lookup] at hc'
                cases hc'
                exact hc
              · exact restDispatch_mono hQ hls hc cfg bg req o _ _ _
                  true true c' hc'
            · exact restDispatch_mono hQ h hc cfg bg req o _ _ _
                false false c' hc'

theorem fetchStage_of_fetched {req : ClmRequest} {o : Oracle} {store : Store}
    {c : SessionContext}
    (h : lookupS (mainKey req.session_id) store = some c)
    (hcf : c.context_fetched = true) :
    fetchStage req o store =
      { store := (getOrCreate (mainKey req.session_id) store).2,
        uname := if tS c.user_name && !tS (resolvedName req) then c.user_name
                 else resolvedName req,
        uctx := c.user_context, memCalls := 0, profCalls := 0,
        wasCached := true } := by
  unfold fetchStage
  simp only [get_cached_user_context, getOrCreate_of_some h, hcf, if_true]

theorem fetchStage_store_mono {req : ClmRequest} {o : Oracle} {store : Store}
    {c : SessionContext}
    (h : lookupS (mainKey req.session_id) store = some c) :
    ∃ g : SessionContext → SessionContext,
      (g = id ∨ ∃ un uc, g = SessionContext.withUserCtx un uc)
      ∧ AtEndP (mainKey req.session_id) (g c)
          (fetchStage req o store).store := by
  have hAt := (atEnd_getOrCreate_of_some h).2
  cases hcf : c.context_fetched with
  | true =>
    refine ⟨id, Or.inl rfl, ?_⟩
    rw [fetchStage_of_fetched h hcf]
    exact hAt
  | false =>
    have hg : get_cached_user_context (mainKey req.session_id) store
        = ((none, none, false),
           (getOrCreate (mainKey req.session_id) store).2) := by
      simp [get_cached_user_context, getOrCreate_of_some h, hcf]
    unfold fetchStage
    simp [hg]
    split
    · exact Or.inr ⟨SessionContext.withUserCtx _ _, ⟨_, _, rfl⟩,
        atEnd_setS hAt _⟩
    · exact Or.inr ⟨SessionContext.withUserCtx _ _, ⟨_, _, rfl⟩,
        atEnd_setS hAt _⟩

theorem fetchStage_of_none {req : ClmRequest} {o : Oracle} {store : Store}
    (h : lookupS (mainKey req.session_id) store = none) :
    (fetchStage req o store).memCalls
        = (if tS (extractUserId req.session_id) then 1 else 0)
    ∧ (fetchStage req o store).profCalls
        = (if tS (extractUserId req.session_id) && !tS (resolvedName req)
           then 1 else 0)
    ∧ ∃ un uc, AtEndP (mainKey req.session_id)
        (SessionContext.init.withUserCtx un uc)
        (fetchStage req o store).store := by
  have hAt : AtEndP (mainKey req.session_id) SessionContext.init
      (dropToCap store ++ [(mainKey req.session_id, SessionContext.init)]) := by
    have h2 := atEnd_getOrCreate_of_none h
    rw [getOrCreate_of_none h] at h2
    exact h2
  have hg : get_cached_user_context (mainKey req.session_id) store
      = ((none, none, false),
         dropToCap store ++ [(mainKey req.session_id, SessionContext.init)]) := by
    simp [get_cached_user_context, getOrCreate_of_none h,
      show SessionContext.init.context_fetched = false from rfl]
  by_cases huid : tS (extractUserId req.session_id)
  · have he : fetchStage req o store = fetchUidBranch req o
        (dropToCap store ++ [(mainKey req.session_id, SessionContext.init)]) := by
      unfold fetchStage fetchUidBranch
      simp only [hg, huid]
      rfl
    rw [he]
    unfold fetchUidBranch
    simp only [huid, if_true, Bool.true_and]
    exact ⟨trivial, trivial, _, _, atEnd_setS hAt _⟩
  · have he : fetchStage req o store =
        { store := cache_user_context (mainKey req.session_id)
            (resolvedName req) none
            (dropToCap store ++ [(mainKey req.session_id, SessionContext.init)]),
          uname := resolvedName req, uctx := none, memCalls := 0,
          profCalls := 0, wasCached := false } := by
      unfold fetchStage
      simp only [hg, huid]
      rfl
    rw [he]
    have h0 : tS (extractUserId req.session_id) = false := by
      rwa [Bool.not_eq_true] at huid
    simp only [h0, Bool.false_and, if_false]
    exact ⟨rfl, rfl, _, _, atEnd_setS hAt _⟩

theorem clmStep_store_eq (cfg : CacheConfig) (store : Store) (bg : BgMap)
    (req : ClmRequest) (o : Oracle) :
    (clmStep cfg store bg req o).store
      = (restPipeline cfg (fetchStage req o store).store bg req o
          (fetchStage req o store).uname (fetchStage req o store).uctx).store
    ∧ (clmStep cfg store bg req o).response
      = (restPipeline cfg (fetchStage req o store).store bg req o
          (fetchStage req o store).uname (fetchStage req o store).uctx).response
    ∧ (clmStep cfg store bg req o).effects.memory
      = (fetchStage req o store).memCalls
    ∧ (clmStep cfg store bg req o).effects.profile
      = (fetchStage req o store).profCalls := by
  simp only [clmStep]
  exact ⟨trivial, trivial, trivial, trivial⟩

theorem clmStep_mono {Q : SessionContext → Bool} (hQ : StepMono Q)
    {cfg : CacheConfig} {store : Store} {bg : BgMap} {req : ClmRequest}
    {o : Oracle} {c : SessionContext}
    (h : lookupS (mainKey req.session_id) store = some c)
    (hc : Q c = true) :
    ∀ c', lookupS (mainKey req.session_id)
        (clmStep cfg store bg req o).store = some c' → Q c' = true := by
  intro c' hc'
  rw [(clmStep_store_eq cfg store bg req o).1] at hc'
  obtain ⟨g, hg, hAt⟩ := fetchStage_store_mono (o := o) h
  have hqg : Q (g c) = true := by
    rcases hg with rfl | ⟨un, uc, rfl⟩
    · exact hc
    · exact hQ.2.2.2.2.2.2 _ _ _ hc
  exact restPipeline_mono hQ cfg bg req o _ _ hAt hqg c' hc'

/-! ### Idempotence analysis of the normalizer -/

/-- Whether one `re.sub(r"\b<key>\b", ...)` pass would replace anything:
the same scan as `replAux`, detecting a match instead of rewriting. -/
def hasMatchAux (key : List Char) (prev : Option Char) : List Char → Bool
  | [] => false
  | c :: rest => wordMatchAt key prev (c :: rest) || hasMatchAux key (some c) rest

/-- A whole-word occurrence of `key` somewhere in `s`. -/
def hasWordMatch (key s : String) : Bool :=
  hasMatchAux key.data none s.data

theorem replAux_of_no_match {key rep : List Char} {prev : Option Char}
    {s : List Char} (h : hasMatchAux key prev s = false) :
    replAux key rep prev 0 s = s := by
  induction s generalizing prev with
  | nil => rfl
  | cons c rest ih =>
    unfold hasMatchAux at h
    rw [Bool.or_eq_false_iff] at h
    unfold replAux
    simp only [h.1, Bool.false_eq_true, if_false]
    rw [ih h.2]

theorem replaceWord_of_no_match {key rep s : String}
    (h : hasWordMatch key s = false) : replaceWord key rep s = s := by
  unfold replaceWord
  rw [replAux_of_no_match h]

theorem foldl_replace_of_no_match {t : String}
    (l : List (String × String))
    (h : ∀ p ∈ l, hasWordMatch p.1 t = false) :
    l.foldl (fun acc p => replaceWord p.1 p.2 acc) t = t := by
  induction l with
  | nil => rfl
  | cons q l ih =>
    rw [List.foldl_cons,
      replaceWord_of_no_match (h q (List.mem_cons_self q l))]
    exact ih (fun p hp => h p (List.mem_cons_of_mem q hp))

theorem toLower_toLower (c : Char) : c.toLower.toLower = c.toLower := by
  simp only [Char.toLower]
  by_cases h : c.toNat ≥ 65 ∧ c.toNat ≤ 90
  · rw [if_pos h]
    have hval : (Char.ofNat (c.toNat + 32)).toNat = c.toNat + 32 := by
      have hv : (c.toNat + 32).isValidChar := Or.inl (by omega)
      unfold Char.ofNat
      rw [dif_pos hv]
      rfl
    have hneg : ¬ ((Char.ofNat (c.toNat + 32)).toNat ≥ 65
        ∧ (Char.ofNat (c.toNat + 32)).toNat ≤ 90) := by
      rw [hval]; omega
    rw [if_neg hneg]
  · rw [if_neg h, if_neg h]

theorem mem_pyStripL {c : Char} {m : List Char} (h : c ∈ pyStripL m) :
    c ∈ m := by
  unfold pyStripL at h
  rw [List.mem_reverse] at h
  have h1 := (List.dropWhile_sublist isPyWs).subset h
  rw [List.mem_reverse] at h1
  exact (List.dropWhile_sublist isPyWs).subset h1

theorem map_eq_self_of {α : Type} (f : α → α) (l : List α)
    (h : ∀ x ∈ l, f x = x) : l.map f = l := by
  induction l with
  | nil => rfl
  | cons a l ih =>
    rw [List.map_cons, h a (List.mem_cons_self a l),
      ih (fun x hx => h x (List.mem_cons_of_mem a hx))]

theorem pyStripL_idem (m : List Char) :
    pyStripL (pyStripL m) = pyStripL m := by
  unfold pyStripL
  set A := m.dropWhile isPyWs with hA
  set B := A.reverse.dropWhile isPyWs with hB
  have hRdrop : B.reverse.dropWhile isPyWs = B.reverse := by
    cases hBR : B.reverse with
    | nil => simp
    | cons r rs =>
      have h2 : B.getLast? = some r := by
        rw [List.getLast?_eq_head?_reverse, hBR]
        rfl
      have hBne : B ≠ [] := by
        intro hnil
        rw [hnil] at hBR
        simp at hBR
      obtain ⟨t, ht⟩ := List.dropWhile_suffix (l := A.reverse) isPyWs
      have h3 : (A.reverse).getLast? = some r := by
        rw [← ht, List.getLast?_append_of_ne_nil _ hBne]
        exact h2
      have h4 : A.head? = some r := by
        rw [List.getLast?_eq_head?_reverse, List.reverse_reverse] at h3
        exact h3
      have hws : isPyWs r = false := by
        have h5 := List.head?_dropWhile_not isPyWs m
        rw [← hA, h4] at h5
        exact h5
      exact List.dropWhile_cons_of_neg (by simp [hws])
  rw [hRdrop, List.reverse_reverse, hB, List.dropWhile_idempotent]

theorem preproc_idem (x : String) :
    pyStrip (pyLower (pyStrip (pyLower x))) = pyStrip (pyLower x) := by
  unfold pyStrip pyLower pyStripL pyLowerL
  simp only
  have hmap : (((((x.data.map Char.toLower).dropWhile isPyWs).reverse.dropWhile
      isPyWs).reverse)).map Char.toLower
      = ((((x.data.map Char.toLower).dropWhile isPyWs).reverse.dropWhile
          isPyWs).reverse) := by
    apply map_eq_self_of
    intro c hc
    have h1 : c ∈ x.data.map Char.toLower :=
      mem_pyStripL (show c ∈ pyStripL (x.data.map Char.toLower) from hc)
    obtain ⟨d, _, rfl⟩ := List.mem_map.mp h1
    exact toLower_toLower d
  rw [hmap]
  have := pyStripL_idem (x.data.map Char.toLower)
  unfold pyStripL at this
  exact congrArg String.mk this

/-! ### Claim C4 — LRU session store -/

theorem eraseKey_length_lt {k : SKey} {s : Store} {c : SessionContext}
    (h : lookupS k s = some c) : (eraseKey k s).length < s.length := by
  induction s with
  | nil => simp [lookupS] at h
  | cons p rest ih =>
    rw [lookupS_cons] at h
    by_cases hp : p.1 = k
    · have h1 : eraseKey k (p :: rest) = eraseKey k rest := by
        simp [eraseKey, List.filter_cons, hp]
      rw [h1]
      have hle : (eraseKey k rest).length ≤ rest.length :=
        List.length_filter_le _ _
      simp only [List.length_cons]
      omega
    · have h1 : eraseKey k (p :: rest) = p :: eraseKey k rest := by
        simp [eraseKey, List.filter_cons, hp]
      rw [h1]
      simp only [hp, if_false] at h
      have := ih h
      simp only [List.length_cons]
      omega

/-- **C4**: `get_session_context` implements a capacity-100 LRU store:
the store never exceeds 100 entries; creating a session at capacity evicts
exactly the least-recently-touched (front) entry; and any access to an
existing session moves it to the most-recently-used end. -/
theorem session_store_lru (s : Store) (k : SKey) :
    (s.length ≤ MAX_SESSIONS → ((getOrCreate k s).2).length ≤ MAX_SESSIONS)
    ∧ (lookupS k s = none → s.length = MAX_SESSIONS →
        (getOrCreate k s).2 = s.drop 1 ++ [(k, SessionContext.init)])
    ∧ (∀ c, lookupS k s = some c →
        (getOrCreate k s).2 = eraseKey k s ++ [(k, c)]) := by
  refine ⟨?_, ?_, ?_⟩
  · intro hlen
    cases hls : lookupS k s with
    | some c =>
      rw [getOrCreate_of_some hls]
      have := eraseKey_length_lt hls
      simp only [List.length_append, List.length_cons, List.length_nil]
      omega
    | none =>
      rw [getOrCreate_of_none hls]
      unfold dropToCap
      split
      · simp only [List.length_append, List.length_drop, List.length_cons,
          List.length_nil, MAX_SESSIONS] at *
        omega
      · simp only [List.length_append, List.length_cons, List.length_nil,
          MAX_SESSIONS] at *
        omega
  · intro hnone hlen
    rw [getOrCreate_of_none hnone]
    unfold dropToCap
    rw [if_pos (le_of_eq hlen.symm)]
    rw [hlen]
    rfl
  · intro c hsome
    rw [getOrCreate_of_some hsome]

/-- Concrete 100-entry store for the C4 witness. -/
def lruDemo : Store :=
  (List.range MAX_SESSIONS).map
    (fun i => ((some (toString i) : SKey), SessionContext.init))

set_option maxRecDepth 4000 in
theorem session_store_lru_witness :
    lruDemo.length = MAX_SESSIONS
    ∧ ((getOrCreate (some "new") lruDemo).2).length ≤ MAX_SESSIONS
    ∧ (getOrCreate (some "new") lruDemo).2
        = lruDemo.drop 1 ++ [(some "new", SessionContext.init)]
    ∧ (getOrCreate (some "7") lruDemo).2
        = eraseKey (some "7") lruDemo ++ [(some "7", SessionContext.init)] :=
  ⟨by decide,
   (session_store_lru lruDemo (some "new")).1 (by decide),
   (session_store_lru lruDemo (some "new")).2.1 (by decide) (by decide),
   (session_store_lru lruDemo (some "7")).2.2 SessionContext.init
     (by decide)⟩

/-! ### Claim C1 — context fetch exactly once -/

theorem stepMono_fetched : StepMono (fun c => c.context_fetched) := by
  refine ⟨?_, ?_, ?_, ?_, ?_, ?_, ?_⟩ <;> intros <;> simp_all

theorem stepMono_greeted : StepMono (fun c => c.greeted_this_session) := by
  refine ⟨?_, ?_, ?_, ?_, ?_, ?_, ?_⟩
  · intro r t c h; simpa using h
  · intro t c h; simpa using h
  · intro t c h; simpa using h
  · intro c h; simpa using h
  · intro b c h; exact markUsed_greeted_mono b c h
  · intro c h; simp
  · intro un uc c h; simpa using h

/-- **C1** (amended): the user-context fetch is gated by
`context_fetched`.  On a session's first message the memory provider is
called exactly when a user id is present, and the profile-name lookup is
called exactly when a user id is present *and no user name was already
resolved from the session id or the forwarded messages* (the claim's
unconditional "and the profile-name lookup" is refuted by the
counterexample); afterwards `context_fetched` is `true`.  On any message of
a session whose context is already fetched, no memory or profile call
occurs — even when the cached user context is `None` — and
`context_fetched` never reverts to `false`. -/
theorem context_fetch_once_amended (cfg : CacheConfig) (store : Store)
    (bg : BgMap) (req : ClmRequest) (o : Oracle) :
    (lookupS (mainKey req.session_id) store = none →
      (clmStep cfg store bg req o).effects.memory
          = (if tS (extractUserId req.session_id) then 1 else 0)
      ∧ (clmStep cfg store bg req o).effects.profile
          = (if tS (extractUserId req.session_id) && !tS (resolvedName req)
             then 1 else 0)
      ∧ ∀ c', lookupS (mainKey req.session_id)
            (clmStep cfg store bg req o).store = some c' →
          c'.context_fetched = true)
    ∧ (∀ c, lookupS (mainKey req.session_id) store = some c →
        c.context_fetched = true →
        (clmStep cfg store bg req o).effects.memory = 0
        ∧ (clmStep cfg store bg req o).effects.profile = 0
        ∧ ∀ c', lookupS (mainKey req.session_id)
              (clmStep cfg store bg req o).store = some c' →
            c'.context_fetched = true) := by
  constructor
  · intro hnone
    obtain ⟨hm, hp, un, uc, hAt⟩ := fetchStage_of_none (o := o) hnone
    refine ⟨?_, ?_, ?_⟩
    · rw [(clmStep_store_eq cfg store bg req o).2.2.1, hm]
    · rw [(clmStep_store_eq cfg store bg req o).2.2.2, hp]
    · intro c' hc'
      rw [(clmStep_store_eq cfg store bg req o).1] at hc'
      exact restPipeline_mono stepMono_fetched cfg bg req o _ _ hAt
        (by simp) c' hc'
  · intro c hsome hcf
    have hf := fetchStage_of_fetched (o := o) hsome hcf
    refine ⟨?_, ?_, ?_⟩
    · rw [(clmStep_store_eq cfg store bg req o).2.2.1, hf]
    · rw [(clmStep_store_eq cfg store bg req o).2.2.2, hf]
    · exact clmStep_mono stepMono_fetched hsome hcf

set_option maxRecDepth 8000 in
theorem context_fetch_once_amended_witness :
    (clmStep {} [] []
        { user_msg := "tell me about tyburn", session_id := some "Dan|user123" }
        { memory := some { found := true } }).effects.memory = 1
    ∧ (clmStep {} [] []
        { user_msg := "tell me about tyburn", session_id := some "Dan|user123" }
        { memory := some { found := true } }).effects.profile = 0
    ∧ (clmStep {} [(some "sess", SessionContext.init.withUserCtx none none)]
        [] { user_msg := "tell me about tyburn", session_id := some "sess" }
        {}).effects.memory = 0
    ∧ (clmStep {} [(some "sess", SessionContext.init.withUserCtx none none)]
        [] { user_msg := "tell me about tyburn", session_id := some "sess" }
        {}).effects.profile = 0 := by
  have h1 := (context_fetch_once_amended {} [] []
    { user_msg := "tell me about tyburn", session_id := some "Dan|user123" }
    { memory := some { found := true } }).1 (by decide)
  have h2 := (context_fetch_once_amended {}
    [(some "sess", SessionContext.init.withUserCtx none none)] []
    { user_msg := "tell me about tyburn", session_id := some "sess" }
    {}).2 (SessionContext.init.withUserCtx none none) (by decide) (by decide)
  exact ⟨by rw [h1.1]; decide, by rw [h1.2.1]; decide, h2.1, h2.2.1⟩

set_option maxRecDepth 8000 in
/-- **C1** (counterexample): with session id `"Dan|user123"` a user id is
present, yet the first message performs no profile-name lookup (the name
"Dan" is already resolved from the session id), contradicting the claim
that the first message calls the memory provider *and* the profile-name
lookup. -/
theorem context_fetch_profile_skip_cex :
    tS (extractUserId (some "Dan|user123")) = true
    ∧ (clmStep {} [] []
        { user_msg := "tell me about tyburn", session_id := some "Dan|user123" }
        { memory := some { found := true } }).effects.memory = 1
    ∧ (clmStep {} [] []
        { user_msg := "tell me about tyburn", session_id := some "Dan|user123" }
        { memory := some { found := true } }).effects.profile = 0 := by
  refine ⟨by decide, by decide, by decide⟩

/-! ### Debug bookkeeping lemmas -/

/-- `session_key in _background_results and ...get("ready")`. -/
def bgReady (skey : String) (bg : BgMap) : Bool :=
  match bgLookup skey bg with
  | some e => e.ready
  | none => false

theorem clmStep_debug_eq (cfg : CacheConfig) (store : Store) (bg : BgMap)
    (req : ClmRequest) (o : Oracle) :
    (clmStep cfg store bg req o).debug
      = (restPipeline cfg (fetchStage req o store).store bg req o
          (fetchStage req o store).uname (fetchStage req o store).uctx).debug
    ∧ (clmStep cfg store bg req o).effects.search
      = (restPipeline cfg (fetchStage req o store).store bg req o
          (fetchStage req o store).uname
          (fetchStage req o store).uctx).effects.search
    ∧ (clmStep cfg store bg req o).effects.llm
      = (restPipeline cfg (fetchStage req o store).store bg req o
          (fetchStage req o store).uname
          (fetchStage req o store).uctx).effects.llm
    ∧ (clmStep cfg store bg req o).effects.prefetch
      = (restPipeline cfg (fetchStage req o store).store bg req o
          (fetchStage req o store).uname
          (fetchStage req o store).uctx).effects.prefetch := by
  simp only [clmStep]
  exact ⟨trivial, trivial, trivial, trivial⟩

theorem searchBranch_debug (store : Store) (bg : BgMap) (req : ClmRequest)
    (o : Oracle) (uid : Option String) (k : SKey) (skey nq2 : String)
    (aff : Bool) :
    (searchBranch store bg req o uid k skey nq2 aff).debug.workingQuery = nq2
    ∧ (searchBranch store bg req o uid k skey nq2 aff).debug.isAffirm = aff
    ∧ (searchBranch store bg req o uid k skey nq2 aff).debug.teaserConsulted
        = false
    ∧ (searchBranch store bg req o uid k skey nq2 aff).debug.sessionKey = skey
    ∧ (searchBranch store bg req o uid k skey nq2 aff).debug.stage
          ≠ Stage.teaserHit
    ∧ (vagueFollowup2 nq2 = false →
        (searchBranch store bg req o uid k skey nq2 aff).debug.searchQuery
          = some nq2) := by
  have hsq : (if (get_current_topic k
        (add_to_history k "user" req.user_msg store)).1 ≠ ""
          && (if (get_current_topic k
              (add_to_history k "user" req.user_msg store)).1 ≠ ""
            then vagueFollowup2 nq2 else false)
      then (get_current_topic k
          (add_to_history k "user" req.user_msg store)).1 ++ " " ++ nq2
      else nq2) = (if ((get_current_topic k
          (add_to_history k "user" req.user_msg store)).1 ≠ ""
            && vagueFollowup2 nq2)
        then (get_current_topic k
            (add_to_history k "user" req.user_msg store)).1 ++ " " ++ nq2
        else nq2) := by
    by_cases h : (get_current_topic k
        (add_to_history k "user" req.user_msg store)).1 ≠ ""
    · simp [h]
    · simp [h]
  unfold searchBranch
  cases o.search with
  | none => exact ⟨rfl, rfl, rfl, rfl, by simp, fun hv => by simp [hv]⟩
  | some arts =>
    cases arts with
    | nil => exact ⟨rfl, rfl, rfl, rfl, by simp, fun hv => by simp [hv]⟩
    | cons a rest =>
      simp only
      split
      · cases o.search_llm with
        | none => exact ⟨rfl, rfl, rfl, rfl, by simp, fun hv => by simp [hv]⟩
        | some out => exact ⟨rfl, rfl, rfl, rfl, by simp, fun hv => by simp [hv]⟩
      · cases o.search_llm with
        | none => exact ⟨rfl, rfl, rfl, rfl, by simp, fun hv => by simp [hv]⟩
        | some out => exact ⟨rfl, rfl, rfl, rfl, by simp, fun hv => by simp [hv]⟩

theorem bgBranch_debug (store : Store) (bg : BgMap) (req : ClmRequest)
    (o : Oracle) (k : SKey) (skey nq2 : String) (aff : Bool) :
    (bgBranch store bg req o k skey nq2 aff).debug.workingQuery = nq2
    ∧ (bgBranch store bg req o k skey nq2 aff).debug.isAffirm = aff
    ∧ (bgBranch store bg req o k skey nq2 aff).debug.sessionKey = skey
    ∧ (bgBranch store bg req o k skey nq2 aff).debug.stage
        ≠ Stage.teaserHit := by
  exact ⟨rfl, rfl, rfl, by simp [bgBranch]⟩

theorem restDispatch_debug (cfg : CacheConfig) (store : Store) (bg : BgMap)
    (req : ClmRequest) (o : Oracle) (uid : Option String) (k : SKey)
    (skey nq2 : String) (skip aff : Bool) :
    (restDispatch cfg store bg req o uid k skey nq2 skip aff).debug.workingQuery
        = nq2
    ∧ (restDispatch cfg store bg req o uid k skey nq2 skip aff).debug.isAffirm
        = aff
    ∧ (restDispatch cfg store bg req o uid k skey nq2 skip
        aff).debug.sessionKey = skey := by
  unfold restDispatch
  simp only
  split
  · exact ⟨rfl, rfl, rfl⟩
  · cases hbg : bgLookup skey bg with
    | some e =>
      simp only
      split
      · have := bgBranch_debug (get_current_topic k
          (increment_turn req.session_id store)).2 bg req o k skey nq2 aff
        exact ⟨this.1, this.2.1, this.2.2.1⟩
      · have := searchBranch_debug (get_current_topic k
          (increment_turn req.session_id store)).2 bg req o uid k skey nq2 aff
        exact ⟨this.1, this.2.1, this.2.2.2.1⟩
    | none =>
      have := searchBranch_debug (get_current_topic k
        (increment_turn req.session_id store)).2 bg req o uid k skey nq2 aff
      exact ⟨this.1, this.2.1, this.2.2.2.1⟩

theorem restDispatch_skip (cfg : CacheConfig) (store : Store) (bg : BgMap)
    (req : ClmRequest) (o : Oracle) (uid : Option String) (k : SKey)
    (skey nq2 : String) (aff : Bool)
    (hbg : bgReady skey bg = false) :
    (restDispatch cfg store bg req o uid k skey nq2 true aff).debug.teaserConsulted
        = false
    ∧ (restDispatch cfg store bg req o uid k skey nq2 true
        aff).debug.stage ≠ Stage.teaserHit
    ∧ (vagueFollowup2 nq2 = false →
        (restDispatch cfg store bg req o uid k skey nq2 true
          aff).debug.searchQuery = some nq2) := by
  unfold restDispatch
  simp only [Bool.and_eq_true, Bool.not_true, Bool.and_false, Bool.true_or,
    if_true]
  cases hb : bgLookup skey bg with
  | some e =>
    have hr : e.ready = false := by
      unfold bgReady at hbg
      rw [hb] at hbg
      exact hbg
    simp only [hr, Bool.false_eq_true, if_false]
    have := searchBranch_debug (get_current_topic k
      (increment_turn req.session_id store)).2 bg req o uid k skey nq2 aff
    exact ⟨this.2.2.1, this.2.2.2.2.1, this.2.2.2.2.2⟩
  | none =>
    have := searchBranch_debug (get_current_topic k
      (increment_turn req.session_id store)).2 bg req o uid k skey nq2 aff
    exact ⟨this.2.2.1, this.2.2.2.2.1, this.2.2.2.2.2⟩

/-- The post-normalization residual (`clean_query`, line 1476). -/
def cleanqOf (req : ClmRequest) : String :=
  pyStrip (stripBraces (normalize_query req.user_msg))

/-- `normalized_lower` (line 1523). -/
def nlowOf (req : ClmRequest) : String :=
  pyStrip (pyLower (cleanqOf req))

theorem restPipeline_no_affirm (cfg : CacheConfig) (store : Store)
    (bg : BgMap) (req : ClmRequest) (o : Oracle) (un : Option String)
    (uc : Option MemRes)
    (hnoise : isNoiseB (cleanqOf req) = false)
    (hrosie : isSubstr "rosie" (pyLower (cleanqOf req)) = false)
    (hgreet : isGreetingRequest req.user_msg (nlowOf req) = false)
    (hnameq : name_questions.any
      (fun q => isSubstr q (pyLower (cleanqOf req))) = false)
    (hidq : identity_keywords.any
      (fun q => isSubstr q (pyLower (cleanqOf req))) = false)
    (haff : isAffirmationB (nlowOf req) = false) :
    restPipeline cfg store bg req o un uc
      = restDispatch cfg store bg req o (extractUserId req.session_id)
          (mainKey req.session_id) (orDefaultS req.session_id)
          (cleanqOf req) false false := by
  simp only [nlowOf, cleanqOf] at hnoise hrosie hgreet hnameq hidq haff
  unfold restPipeline
  simp only [hnoise, hrosie, hgreet, hnameq, hidq, haff,
    Bool.false_eq_true, if_false]
  rfl

theorem restPipeline_affirm (cfg : CacheConfig) (store : Store)
    (bg : BgMap) (req : ClmRequest) (o : Oracle) (un : Option String)
    (uc : Option MemRes) (c : SessionContext)
    (hAt : AtEndP (mainKey req.session_id) c store)
    (hnoise : isNoiseB (cleanqOf req) = false)
    (hrosie : isSubstr "rosie" (pyLower (cleanqOf req)) = false)
    (hgreet : isGreetingRequest req.user_msg (nlowOf req) = false)
    (hnameq : name_questions.any
      (fun q => isSubstr q (pyLower (cleanqOf req))) = false)
    (hidq : identity_keywords.any
      (fun q => isSubstr q (pyLower (cleanqOf req))) = false)
    (haff : isAffirmationB (nlowOf req) = true) :
    (c.last_suggested_topic ≠ "" →
      restPipeline cfg store bg req o un uc
        = restDispatch cfg
            (get_last_suggestion (mainKey req.session_id) store).2 bg req o
            (extractUserId req.session_id) (mainKey req.session_id)
            (orDefaultS req.session_id) c.last_suggested_topic true true)
    ∧ (c.last_suggested_topic = "" →
      (restPipeline cfg store bg req o un uc).response = noTargetText
      ∧ (restPipeline cfg store bg req o un uc).effects = {}
      ∧ (restPipeline cfg store bg req o un uc).debug.stage
          = Stage.affirmNoTarget
      ∧ lookupS (mainKey req.session_id)
          (restPipeline cfg store bg req o un uc).store = some c) := by
  have hls := atEnd_get_last_suggestion hAt
  simp only [nlowOf, cleanqOf] at hnoise hrosie hgreet hnameq hidq haff
  unfold restPipeline
  simp only [hnoise, hrosie, hgreet, hnameq, hidq, haff,
    Bool.false_eq_true, if_false, if_true]
  constructor
  · intro ht
    rw [hls.1, if_pos ht]
  · intro ht
    rw [hls.1, if_neg (by simp [ht])]
    exact ⟨rfl, rfl, rfl, hls.2.lookup⟩

theorem fetchStage_fetched_fields {req : ClmRequest} {o : Oracle}
    {store : Store} {c : SessionContext}
    (hsome : lookupS (mainKey req.session_id) store = some c)
    (hcf : c.context_fetched = true) :
    (fetchStage req o store).store
        = (getOrCreate (mainKey req.session_id) store).2
    ∧ (fetchStage req o store).uname
        = (if tS c.user_name && !tS (resolvedName req) then c.user_name
           else resolvedName req)
    ∧ (fetchStage req o store).uctx = c.user_context := by
  rw [fetchStage_of_fetched hsome hcf]
  exact ⟨rfl, rfl, rfl⟩

/-! ### Claim C10 — substring affirmation overcapture -/

/-- **C10**: when the normalized message merely *contains* an affirmation
phrase (such as "tell me" inside "tell me about tyburn") and a last
suggested topic is stored, the controller classifies the whole message as
an affirmation and replaces the working query with the stored topic,
discarding the topic actually named in the message. -/
theorem affirmation_substring_overcapture (cfg : CacheConfig)
    (store : Store) (bg : BgMap) (req : ClmRequest) (o : Oracle)
    (c : SessionContext) (p : String)
    (hsome : lookupS (mainKey req.session_id) store = some c)
    (hcf : c.context_fetched = true)
    (hnoise : isNoiseB (cleanqOf req) = false)
    (hrosie : isSubstr "rosie" (pyLower (cleanqOf req)) = false)
    (hgreet : isGreetingRequest req.user_msg (nlowOf req) = false)
    (hnameq : name_questions.any
      (fun q => isSubstr q (pyLower (cleanqOf req))) = false)
    (hidq : identity_keywords.any
      (fun q => isSubstr q (pyLower (cleanqOf req))) = false)
    (hp : p ∈ AFFIRMATION_PHRASES)
    (hsub : isSubstr p (nlowOf req) = true)
    (hsugg : c.last_suggested_topic ≠ "") :
    (clmStep cfg store bg req o).debug.isAffirm = true
    ∧ (clmStep cfg store bg req o).debug.workingQuery
        = c.last_suggested_topic := by
  have haff : isAffirmationB (nlowOf req) = true := by
    unfold isAffirmationB
    have hany : AFFIRMATION_PHRASES.any (fun q => isSubstr q (nlowOf req))
        = true := List.any_eq_true.mpr ⟨p, hp, hsub⟩
    rw [hany]
    simp
  obtain ⟨hst, hun, huc⟩ := fetchStage_fetched_fields (o := o) hsome hcf
  have hAt := (atEnd_getOrCreate_of_some hsome).2
  have hwalk := (restPipeline_affirm cfg
    (getOrCreate (mainKey req.session_id) store).2 bg req o
    (if tS c.user_name && !tS (resolvedName req) then c.user_name
     else resolvedName req) c.user_context c hAt
    hnoise hrosie hgreet hnameq hidq haff).1 hsugg
  have hdbg := (clmStep_debug_eq cfg store bg req o).1
  rw [hst, hun, huc, hwalk] at hdbg
  rw [hdbg]
  have hd := restDispatch_debug cfg
    (get_last_suggestion (mainKey req.session_id)
      (getOrCreate (mainKey req.session_id) store).2).2 bg req o
    (extractUserId req.session_id) (mainKey req.session_id)
    (orDefaultS req.session_id) c.last_suggested_topic true true
  exact ⟨hd.2.1, hd.1⟩

set_option maxRecDepth 8000 in
theorem affirmation_substring_overcapture_witness :
    (clmStep {}
      [(some "default",
        { last_suggested_topic := "Thorney Island", context_fetched := true })]
      [] { user_msg := "tell me about tyburn" }
      { search := some [{ title := "Thorney Island" }],
        search_llm := some "A tale." }).debug.isAffirm = true
    ∧ (clmStep {}
      [(some "default",
        { last_suggested_topic := "Thorney Island", context_fetched := true })]
      [] { user_msg := "tell me about tyburn" }
      { search := some [{ title := "Thorney Island" }],
        search_llm := some "A tale." }).debug.workingQuery
        = "Thorney Island" :=
  affirmation_substring_overcapture {} _ [] _ _
    { last_suggested_topic := "Thorney Island", context_fetched := true }
    "tell me" (by decide) (by decide) (by decide) (by decide) (by decide)
    (by decide) (by decide) (by decide) (by decide) (by decide)

/-! ### Claim C3 — bare affirmation resolution -/

/-- **C3**: with a stored `last_suggested_topic`, a message classified as
an affirmation replaces the working query with that topic and skips the
teaser-cache stage, so a full-detail path handles it (and, absent query
enrichment, the search query is exactly that topic); with no stored
suggestion, the affirmation terminates with the what-to-explore prompt and
performs no search and no LLM call. -/
theorem affirmation_resolution (cfg : CacheConfig) (store : Store)
    (bg : BgMap) (req : ClmRequest) (o : Oracle) (c : SessionContext)
    (hsome : lookupS (mainKey req.session_id) store = some c)
    (hcf : c.context_fetched = true)
    (hnoise : isNoiseB (cleanqOf req) = false)
    (hrosie : isSubstr "rosie" (pyLower (cleanqOf req)) = false)
    (hgreet : isGreetingRequest req.user_msg (nlowOf req) = false)
    (hnameq : name_questions.any
      (fun q => isSubstr q (pyLower (cleanqOf req))) = false)
    (hidq : identity_keywords.any
      (fun q => isSubstr q (pyLower (cleanqOf req))) = false)
    (haff : isAffirmationB (nlowOf req) = true) :
    (c.last_suggested_topic ≠ "" →
      (clmStep cfg store bg req o).debug.workingQuery
          = c.last_suggested_topic
      ∧ (clmStep cfg store bg req o).debug.isAffirm = true
      ∧ (bgReady (orDefaultS req.session_id) bg = false →
          (clmStep cfg store bg req o).debug.teaserConsulted = false
          ∧ (clmStep cfg store bg req o).debug.stage ≠ Stage.teaserHit
          ∧ (vagueFollowup2 c.last_suggested_topic = false →
              (clmStep cfg store bg req o).debug.searchQuery
                = some c.last_suggested_topic)))
    ∧ (c.last_suggested_topic = "" →
      (clmStep cfg store bg req o).response = noTargetText
      ∧ (clmStep cfg store bg req o).effects.search = 0
      ∧ (clmStep cfg store bg req o).effects.llm = 0) := by
  obtain ⟨hst, hun, huc⟩ := fetchStage_fetched_fields (o := o) hsome hcf
  have hAt := (atEnd_getOrCreate_of_some hsome).2
  have hwalk := restPipeline_affirm cfg
    (getOrCreate (mainKey req.session_id) store).2 bg req o
    (if tS c.user_name && !tS (resolvedName req) then c.user_name
     else resolvedName req) c.user_context c hAt
    hnoise hrosie hgreet hnameq hidq haff
  have hdbg := (clmStep_debug_eq cfg store bg req o).1
  have hse := (clmStep_debug_eq cfg store bg req o).2.1
  have hle := (clmStep_debug_eq cfg store bg req o).2.2.1
  have hresp := (clmStep_store_eq cfg store bg req o).2.1
  rw [hst, hun, huc] at hdbg hse hle hresp
  constructor
  · intro ht
    rw [hwalk.1 ht] at hdbg
    have hd := restDispatch_debug cfg
      (get_last_suggestion (mainKey req.session_id)
        (getOrCreate (mainKey req.session_id) store).2).2 bg req o
      (extractUserId req.session_id) (mainKey req.session_id)
      (orDefaultS req.session_id) c.last_suggested_topic true true
    refine ⟨by rw [hdbg]; exact hd.1, by rw [hdbg]; exact hd.2.1, ?_⟩
    intro hbg
    have hsk := restDispatch_skip cfg
      (get_last_suggestion (mainKey req.session_id)
        (getOrCreate (mainKey req.session_id) store).2).2 bg req o
      (extractUserId req.session_id) (mainKey req.session_id)
      (orDefaultS req.session_id) c.last_suggested_topic true hbg
    refine ⟨by rw [hdbg]; exact hsk.1, by rw [hdbg]; exact hsk.2.1, ?_⟩
    intro hv2
    rw [hdbg]
    exact hsk.2.2 hv2
  · intro ht
    obtain ⟨hr, he, _, _⟩ := hwalk.2 ht
    refine ⟨by rw [hresp, hr], ?_, ?_⟩
    · rw [hse, he]
    · rw [hle, he]

theorem affirmation_resolution_witness :
    (clmStep {}
      [(some "default",
        { last_suggested_topic := "Thorney Island", context_fetched := true })]
      [] { user_msg := "yes" } {}).debug.workingQuery = "Thorney Island"
    ∧ (clmStep {}
      [(some "default",
        { last_suggested_topic := "Thorney Island", context_fetched := true })]
      [] { user_msg := "yes" } {}).debug.searchQuery = some "Thorney Island"
    ∧ (clmStep {}
      [(some "default", { context_fetched := true })]
      [] { user_msg := "yes" } {}).response = noTargetText
    ∧ (clmStep {}
      [(some "default", { context_fetched := true })]
      [] { user_msg := "yes" } {}).effects.search = 0 := by
  have h1 := affirmation_resolution {}
    [(some "default",
      { last_suggested_topic := "Thorney Island", context_fetched := true })]
    [] { user_msg := "yes" } {}
    { last_suggested_topic := "Thorney Island", context_fetched := true }
    (by decide) (by decide) (by decide) (by decide) (by decide) (by decide)
    (by decide) (by decide)
  have h2 := affirmation_resolution {}
    [(some "default", { context_fetched := true })]
    [] { user_msg := "yes" } {} { context_fetched := true }
    (by decide) (by decide) (by decide) (by decide) (by decide) (by decide)
    (by decide) (by decide)
  have ha := h1.1 (by decide)
  have hb := h2.2 (by decide)
  exact ⟨ha.1, ((ha.2.2 (by decide)).2.2 (by decide)), hb.1, hb.2.1⟩

/-! ### Claim C6 — normalize_query idempotence -/

set_option maxRecDepth 10000 in
theorem normalize_query_not_idempotent_cex :
    normalize_query "images of" = "show me images of london history"
    ∧ normalize_query (normalize_query "images of")
        ≠ normalize_query "images of" := by
  constructor
  · decide
  · decide

/-- **C6** (amended): `normalize_query` is a fixed point — and hence
idempotent — exactly on inputs whose lower-cased, stripped form contains
no whole-word occurrence of any phonetic-correction key; on such inputs it
is the identity up to lower-casing and stripping.  (The unconditional
idempotence stated by the spec fails: correction values may themselves
contain correction keys, as `normalize_query_not_idempotent_cex` shows on
"images of".) -/
theorem normalize_query_idempotent_amended (x : String)
    (h : ∀ p ∈ PHONETIC_CORRECTIONS,
      hasWordMatch p.1 (pyStrip (pyLower x)) = false) :
    normalize_query x = pyStrip (pyLower x)
    ∧ normalize_query (normalize_query x) = normalize_query x := by
  have h1 : normalize_query x = pyStrip (pyLower x) := by
    unfold normalize_query
    exact foldl_replace_of_no_match PHONETIC_CORRECTIONS h
  refine ⟨h1, ?_⟩
  rw [h1]
  unfold normalize_query
  rw [preproc_idem]
  exact foldl_replace_of_no_match PHONETIC_CORRECTIONS h

set_option maxRecDepth 4000 in
theorem normalize_query_idempotent_amended_witness :
    normalize_query "tell me about Tyburn" = "tell me about tyburn"
    ∧ normalize_query (normalize_query "tell me about Tyburn")
        = normalize_query "tell me about Tyburn" := by
  have h := normalize_query_idempotent_amended "tell me about Tyburn"
    (by decide)
  exact ⟨h.1, h.2⟩

/-! ### Claim C2 — greeting at most once -/

theorem restPipeline_greet (cfg : CacheConfig) (store : Store) (bg : BgMap)
    (req : ClmRequest) (o : Oracle) (un : Option String) (uc : Option MemRes)
    (c : SessionContext)
    (hAt : AtEndP (mainKey req.session_id) c store)
    (hnoise : isNoiseB (cleanqOf req) = false)
    (hrosie : isSubstr "rosie" (pyLower (cleanqOf req)) = false)
    (hgreet : isGreetingRequest req.user_msg (nlowOf req) = true) :
    (c.greeted_this_session = false →
      (restPipeline cfg store bg req o un uc).response
          = (greetingBranch un uc).1
      ∧ (restPipeline cfg store bg req o un uc).debug.stage
          = Stage.greetFirst
      ∧ (restPipeline cfg store bg req o un uc).effects = {}
      ∧ ∃ c', lookupS (mainKey req.session_id)
            (restPipeline cfg store bg req o un uc).store = some c'
          ∧ c'.greeted_this_session = true)
    ∧ (c.greeted_this_session = true →
      (restPipeline cfg store bg req o un uc).response = genericExplore
      ∧ (restPipeline cfg store bg req o un uc).debug.stage
          = Stage.greetAgain
      ∧ (restPipeline cfg store bg req o un uc).effects = {}
      ∧ lookupS (mainKey req.session_id)
          (restPipeline cfg store bg req o un uc).store = some c) := by
  have hg := atEnd_getOrCreate hAt
  simp only [nlowOf, cleanqOf] at hnoise hrosie hgreet
  unfold restPipeline
  simp only [hnoise, hrosie, hgreet, Bool.false_eq_true, if_false, if_true]
  rw [hg.1]
  constructor
  · intro hf
    rw [hf]
    simp only [Bool.not_false, if_true]
    refine ⟨by trivial, by trivial, by trivial, ?_⟩
    rcases hb : (greetingBranch un uc).2.1 with _ | t
    · simp only [hb]
      by_cases hb2 : (greetingBranch un uc).2.2 = true
      · rw [if_pos hb2]
        exact ⟨_, (atEnd_setS (atEnd_mark_name_used hg.2 true) _).lookup, rfl⟩
      · rw [if_neg hb2]
        exact ⟨_, (atEnd_setS hg.2 _).lookup, rfl⟩
    · simp only [hb]
      by_cases hb2 : (greetingBranch un uc).2.2 = true
      · rw [if_pos hb2]
        exact ⟨_, (atEnd_setS (atEnd_mark_name_used
          (atEnd_set_last_suggestion hg.2 t) true) _).lookup, rfl⟩
      · rw [if_neg hb2]
        exact ⟨_, (atEnd_setS (atEnd_set_last_suggestion hg.2 t) _).lookup,
          rfl⟩
  · intro ht
    rw [ht]
    simp only [Bool.not_true, Bool.false_eq_true, if_false]
    exact ⟨by trivial, by trivial, by trivial, hg.2.lookup⟩

set_option maxRecDepth 4000 in
theorem greeting_hi_noise_cex :
    isGreetingRequest "hi" (nlowOf { user_msg := "hi" }) = true
    ∧ (clmStep {} [] [] { user_msg := "hi" } {}).response = ""
    ∧ (clmStep {} [] [] { user_msg := "hi" } {}).debug.stage
        = Stage.noiseEmpty
    ∧ (lookupS (some "default")
        (clmStep {} [] [] { user_msg := "hi" } {}).store).map
        (fun c => c.greeted_this_session) = some false := by
  refine ⟨by decide, by decide, by decide, by decide⟩

/-- **C2** (amended): on a session whose user context is already cached, a
greeting-shaped message that survives the earlier noise and easter-egg
stages is greeted at most once: if `greeted_this_session` is still false
the response is the selected personalized greeting template and the stored
flag becomes true; if it is already true the response is the generic
explore prompt, the stored context value is untouched, and no later
request ever resets the flag to false.  (The original claim fails for the
plain greeting "hi": it is greeting-shaped yet the noise stage intercepts
it first, returning the empty response and leaving the session ungreeted —
`greeting_hi_noise_cex`.) -/
theorem greeting_once_amended (cfg : CacheConfig) (store : Store)
    (bg : BgMap) (req : ClmRequest) (o : Oracle) (c : SessionContext)
    (hsome : lookupS (mainKey req.session_id) store = some c)
    (hcf : c.context_fetched = true)
    (hnoise : isNoiseB (cleanqOf req) = false)
    (hrosie : isSubstr "rosie" (pyLower (cleanqOf req)) = false)
    (hgreet : isGreetingRequest req.user_msg (nlowOf req) = true) :
    (c.greeted_this_session = false →
      (clmStep cfg store bg req o).response
          = (greetingBranch
              (if tS c.user_name && !tS (resolvedName req) then c.user_name
               else resolvedName req) c.user_context).1
      ∧ (clmStep cfg store bg req o).debug.stage = Stage.greetFirst
      ∧ ∃ c', lookupS (mainKey req.session_id)
            (clmStep cfg store bg req o).store = some c'
          ∧ c'.greeted_this_session = true)
    ∧ (c.greeted_this_session = true →
      (clmStep cfg store bg req o).response = genericExplore
      ∧ (clmStep cfg store bg req o).debug.stage = Stage.greetAgain
      ∧ lookupS (mainKey req.session_id)
          (clmStep cfg store bg req o).store = some c)
    ∧ (c.greeted_this_session = true →
      ∀ c', lookupS (mainKey req.session_id)
          (clmStep cfg store bg req o).store = some c'
        → c'.greeted_this_session = true) := by
  obtain ⟨hst, hun, huc⟩ := fetchStage_fetched_fields (o := o) hsome hcf
  have hAt := (atEnd_getOrCreate_of_some hsome).2
  have hwalk := restPipeline_greet cfg
    (getOrCreate (mainKey req.session_id) store).2 bg req o
    (if tS c.user_name && !tS (resolvedName req) then c.user_name
     else resolvedName req) c.user_context c hAt hnoise hrosie hgreet
  have hdbg := (clmStep_debug_eq cfg store bg req o).1
  have hresp := (clmStep_store_eq cfg store bg req o).2.1
  have hstore := (clmStep_store_eq cfg store bg req o).1
  rw [hst, hun, huc] at hdbg hresp hstore
  refine ⟨?_, ?_, ?_⟩
  · intro hf
    obtain ⟨h1, h2, _, c', h4, h5⟩ := hwalk.1 hf
    refine ⟨by rw [hresp, h1], by rw [hdbg, h2], c', by rw [hstore]; exact h4,
      h5⟩
  · intro ht
    obtain ⟨h1, h2, _, h4⟩ := hwalk.2 ht
    exact ⟨by rw [hresp, h1], by rw [hdbg, h2], by rw [hstore]; exact h4⟩
  · intro ht
    exact clmStep_mono stepMono_greeted hsome ht

theorem greeting_once_amended_witness :
    (clmStep {} [(some "default", { context_fetched := true })] []
      { user_msg := "hello" } {}).response = (greetingBranch none none).1
    ∧ (clmStep {} [(some "default",
        { context_fetched := true, greeted_this_session := true })] []
      { user_msg := "hello" } {}).response = genericExplore := by
  have h1 := greeting_once_amended {}
    [(some "default", { context_fetched := true })] []
    { user_msg := "hello" } {} { context_fetched := true }
    (by decide) (by decide) (by decide) (by decide) (by decide)
  have h2 := greeting_once_amended {}
    [(some "default",
      { context_fetched := true, greeted_this_session := true })] []
    { user_msg := "hello" } {}
    { context_fetched := true, greeted_this_session := true }
    (by decide) (by decide) (by decide) (by decide) (by decide)
  exact ⟨(h1.1 (by decide)).1, (h2.2.1 (by decide)).1⟩

/-! ### Claim C9 — requests without a session id -/

theorem restPipeline_skey (cfg : CacheConfig) (store : Store) (bg : BgMap)
    (req : ClmRequest) (o : Oracle) (un : Option String)
    (uc : Option MemRes) :
    (restPipeline cfg store bg req o un uc).debug.sessionKey
      = orDefaultS req.session_id := by
  unfold restPipeline
  simp only
  repeat' split
  all_goals first
    | rfl
    | exact (restDispatch_debug _ _ _ _ _ _ _ _ _ _ _).2.2

set_option maxRecDepth 4000 in
theorem anonymous_shared_state_cex :
    (clmStep {} [] [] { user_msg := "hello" } {}).response ≠ genericExplore
    ∧ (clmStep {}
        (clmStep {} [] [] { user_msg := "hello" } {}).store
        [] { user_msg := "hello" } {}).response = genericExplore := by
  refine ⟨by decide, by decide⟩

/-- **C9** (amended): a request arriving without a session id is never
rejected — the controller handles it to completion under the fixed
fallback key "default"; consequently its per-conversation state is the
*shared* "default" session, not a freshly isolated one.  (The isolation
part of the original claim is false: two consecutive session-id-less
greetings interact, the second receiving the already-greeted generic
prompt produced by the first — `anonymous_shared_state_cex`.) -/
theorem missing_session_id_default (cfg : CacheConfig) (store : Store)
    (bg : BgMap) (req : ClmRequest) (o : Oracle)
    (hnone : req.session_id = none) :
    (clmStep cfg store bg req o).debug.sessionKey = "default"
    ∧ mainKey req.session_id = some "default" := by
  constructor
  · rw [(clmStep_debug_eq cfg store bg req o).1, restPipeline_skey, hnone]
    rfl
  · rw [hnone]
    rfl

theorem missing_session_id_default_witness :
    (clmStep {} [] [] { user_msg := "hello" } {}).debug.sessionKey
        = "default"
    ∧ mainKey (ClmRequest.session_id { user_msg := "hello" })
        = some "default" :=
  missing_session_id_default {} [] [] { user_msg := "hello" } {} rfl

/-! ### Claim C7 — noise classification and the noise branch -/


def lastTopicOf (c : SessionContext) : String :=
  if c.last_suggested_topic ≠ "" then c.last_suggested_topic
  else currentTopicOf c

def noisePrompt (t : String) : String :=
  "Would you like to know more about " ++ t
    ++ ", or shall we explore something else?"

theorem restPipeline_noise (cfg : CacheConfig) (store : Store) (bg : BgMap)
    (req : ClmRequest) (o : Oracle) (un : Option String) (uc : Option MemRes)
    (c : SessionContext)
    (hAt : AtEndP (mainKey req.session_id) c store)
    (hnoise : isNoiseB (cleanqOf req) = true) :
    (restPipeline cfg store bg req o un uc).effects = {}
    ∧ (lastTopicOf c ≠ "" →
        (restPipeline cfg store bg req o un uc).response
            = noisePrompt (lastTopicOf c)
        ∧ lookupS (mainKey req.session_id)
            (restPipeline cfg store bg req o un uc).store
          = some (c.withHist "assistant" (noisePrompt (lastTopicOf c))))
    ∧ (lastTopicOf c = "" →
        (restPipeline cfg store bg req o un uc).response = ""
        ∧ lookupS (mainKey req.session_id)
            (restPipeline cfg store bg req o un uc).store = some c) := by
  have hct := atEnd_get_current_topic hAt
  have hls := atEnd_get_last_suggestion hct.2
  simp only [cleanqOf] at hnoise
  unfold restPipeline
  simp only [hnoise, if_true]
  rw [hct.1, hls.1]
  by_cases hsug : c.last_suggested_topic ≠ ""
  · have hlt : lastTopicOf c = c.last_suggested_topic := by
      unfold lastTopicOf
      rw [if_pos hsug]
    simp only [hsug, if_true, ne_eq, not_false_iff]
    refine ⟨trivial, ?_, ?_⟩
    · intro _
      rw [hlt]
      exact ⟨rfl, (atEnd_add_to_history hls.2 "assistant" _).lookup⟩
    · intro h0
      exact absurd (hlt ▸ h0) hsug
  · have hs0 : c.last_suggested_topic = "" := by
      by_contra hne
      exact hsug hne
    have hlt : lastTopicOf c = currentTopicOf c := by
      unfold lastTopicOf
      rw [if_neg hsug]
    simp only [hs0, ne_eq, not_true, if_false]
    by_cases hc0 : currentTopicOf c = ""
    · simp only [hc0, not_true, if_false]
      refine ⟨by trivial, ?_, ?_⟩
      · intro h0
        rw [hlt] at h0
        exact absurd hc0 h0
      · intro _
        exact ⟨by trivial, hls.2.lookup⟩
    · simp only [hc0, not_false_iff, if_true]
      refine ⟨by trivial, ?_, ?_⟩
      · intro _
        rw [hlt]
        exact ⟨rfl, (atEnd_add_to_history hls.2 "assistant" _).lookup⟩
      · intro h0
        rw [hlt] at h0
        exact absurd h0 hc0

/-- The classification the spec's words describe: fewer than 3 *alphabetic*
characters in the residual, or a bare filler token. -/
def noiseSpecClaim (cleanq : String) : Bool :=
  decide ((cleanq.data.filter Char.isAlpha).length < 3)
    || fillerTokens.contains (pyLower cleanq)

set_option maxRecDepth 4000 in
theorem noise_alpha_count_cex :
    noiseSpecClaim "a b" = true
    ∧ isNoiseB "a b" = false
    ∧ cleanqOf { user_msg := "a b" } = "a b"
    ∧ (clmStep {} [] [] { user_msg := "a b" }
        { search := some [] }).effects.search = 1 := by
  refine ⟨by decide, by decide, by decide, by decide⟩

/-- **C7** (amended): the code classifies the stripped residual as noise
when its *total* length is under 3 characters, it is a bare filler token,
or it contains no letter — not when it has fewer than 3 alphabetic
characters as the spec says (`noise_alpha_count_cex`: "a b" has 2 letters
yet is searched).  On a residual the code does classify as noise, no
search, LLM or prefetch call happens; with a remembered topic or
suggestion the response is the continue-topic prompt and is recorded to
the session history, otherwise the response is empty and the context value
is untouched. -/
theorem noise_branch_amended (cfg : CacheConfig) (store : Store)
    (bg : BgMap) (req : ClmRequest) (o : Oracle) (c : SessionContext)
    (hsome : lookupS (mainKey req.session_id) store = some c)
    (hcf : c.context_fetched = true)
    (hnoise : isNoiseB (cleanqOf req) = true) :
    (clmStep cfg store bg req o).effects.search = 0
    ∧ (clmStep cfg store bg req o).effects.llm = 0
    ∧ (clmStep cfg store bg req o).effects.prefetch = 0
    ∧ (lastTopicOf c ≠ "" →
        (clmStep cfg store bg req o).response = noisePrompt (lastTopicOf c)
        ∧ lookupS (mainKey req.session_id)
            (clmStep cfg store bg req o).store
          = some (c.withHist "assistant" (noisePrompt (lastTopicOf c))))
    ∧ (lastTopicOf c = "" →
        (clmStep cfg store bg req o).response = ""
        ∧ lookupS (mainKey req.session_id)
            (clmStep cfg store bg req o).store = some c) := by
  obtain ⟨hst, hun, huc⟩ := fetchStage_fetched_fields (o := o) hsome hcf
  have hAt := (atEnd_getOrCreate_of_some hsome).2
  have hwalk := restPipeline_noise cfg
    (getOrCreate (mainKey req.session_id) store).2 bg req o
    (if tS c.user_name && !tS (resolvedName req) then c.user_name
     else resolvedName req) c.user_context c hAt hnoise
  have hse := (clmStep_debug_eq cfg store bg req o).2.1
  have hle := (clmStep_debug_eq cfg store bg req o).2.2.1
  have hpe := (clmStep_debug_eq cfg store bg req o).2.2.2
  have hresp := (clmStep_store_eq cfg store bg req o).2.1
  have hstore := (clmStep_store_eq cfg store bg req o).1
  rw [hst, hun, huc] at hse hle hpe hresp hstore
  refine ⟨by rw [hse, hwalk.1], by rw [hle, hwalk.1],
    by rw [hpe, hwalk.1], ?_, ?_⟩
  · intro ht
    obtain ⟨h1, h2⟩ := hwalk.2.1 ht
    exact ⟨by rw [hresp, h1], by rw [hstore]; exact h2⟩
  · intro ht
    obtain ⟨h1, h2⟩ := hwalk.2.2 ht
    exact ⟨by rw [hresp, h1], by rw [hstore]; exact h2⟩

theorem noise_branch_amended_witness :
    (clmStep {} [(some "default",
        { last_suggested_topic := "Thorney Island",
          context_fetched := true })]
      [] { user_msg := "um" } {}).effects.search = 0
    ∧ (clmStep {} [(some "default",
        { last_suggested_topic := "Thorney Island",
          context_fetched := true })]
      [] { user_msg := "um" } {}).response
        = noisePrompt "Thorney Island" := by
  have h := noise_branch_amended {}
    [(some "default",
      { last_suggested_topic := "Thorney Island", context_fetched := true })]
    [] { user_msg := "um" } {}
    { last_suggested_topic := "Thorney Island", context_fetched := true }
    (by decide) (by decide) (by decide)
  exact ⟨h.1, (h.2.2.2.1 (by decide)).1⟩

/-! ### Claim C5 — topic anchor under vague follow-ups -/

theorem currentTopicOf_withHist (r t : String) (c : SessionContext) :
    currentTopicOf (c.withHist r t) = currentTopicOf c := by
  simp [currentTopicOf]

theorem searchBranch_anchor (store : Store) (bg : BgMap) (req : ClmRequest)
    (o : Oracle) (uid : Option String) (k : SKey) (skey nq2 : String)
    (aff : Bool) (c : SessionContext) (hAt : AtEndP k c store) :
    (searchBranch store bg req o uid k skey nq2 aff).debug.searchQuery
      = some (if currentTopicOf c ≠ "" && vagueFollowup2 nq2
              then currentTopicOf c ++ " " ++ nq2 else nq2)
    ∧ (currentTopicOf c ≠ "" →
        ∃ c', lookupS k
            (searchBranch store bg req o uid k skey nq2 aff).store = some c'
          ∧ c'.current_topic_context = c.current_topic_context
          ∧ c'.last_topic = c.last_topic)
    ∧ (∀ a rest, currentTopicOf c = "" → o.search = some (a :: rest) →
        ∃ c', lookupS k
            (searchBranch store bg req o uid k skey nq2 aff).store = some c'
          ∧ c'.current_topic_context = a.title) := by
  have hA1 := atEnd_add_to_history hAt "user" req.user_msg
  have hct := atEnd_get_current_topic hA1
  have hcteq := currentTopicOf_withHist "user" req.user_msg c
  unfold searchBranch
  simp only
  rw [hct.1, hcteq]
  by_cases hx : currentTopicOf c = ""
  · simp only [hx, ne_eq, not_true, if_false, Bool.false_and, if_true]
    refine ⟨?_, ?_, ?_⟩
    · cases hso : o.search with
      | none => simp
      | some l =>
        cases l with
        | nil => simp
        | cons a rest =>
          cases hsl : o.search_llm with
          | none => simp
          | some out => simp
    · intro ht
      exact ht.elim
    · intro a rest _ hso
      have hset := atEnd_set_current_topic hct.2 a.title
      have hg2 := atEnd_getOrCreate hset
      have hct2 := atEnd_get_current_topic hg2.2
      simp only [hso]
      cases hsl : o.search_llm with
      | none =>
        exact ⟨_, (atEnd_add_to_history hct2.2 "assistant"
          searchFailText).lookup, by simp⟩
      | some out =>
        exact ⟨_, (atEnd_add_to_history hct2.2 "assistant"
          (truncateSearch out)).lookup, by simp⟩
  · have hg2 := atEnd_getOrCreate hct.2
    have hct2 := atEnd_get_current_topic hg2.2
    simp only [hx, ne_eq, not_false_iff, decide_True, Bool.true_and,
      if_true, if_false]
    refine ⟨?_, ?_, ?_⟩
    · cases hso : o.search with
      | none => rfl
      | some l =>
        cases l with
        | nil => rfl
        | cons a rest =>
          cases hsl : o.search_llm with
          | none => rfl
          | some out => rfl
    · intro _
      cases hso : o.search with
      | none =>
        exact ⟨_, (atEnd_add_to_history hct.2 "assistant"
          searchFailText).lookup, by simp, by simp⟩
      | some l =>
        cases l with
        | nil =>
          exact ⟨_, (atEnd_add_to_history hct.2 "assistant"
            noResultsText).lookup, by simp, by simp⟩
        | cons a rest =>
          cases hsl : o.search_llm with
          | none =>
            exact ⟨_, (atEnd_add_to_history hct2.2 "assistant"
              searchFailText).lookup, by simp, by simp⟩
          | some out =>
            exact ⟨_, (atEnd_add_to_history hct2.2 "assistant"
              (truncateSearch out)).lookup, by simp, by simp⟩
    · intro a rest h0 _
      exact h0.elim

theorem currentTopicOf_incTurn (c : SessionContext) :
    currentTopicOf c.incTurn = currentTopicOf c := by
  simp [currentTopicOf]

theorem restDispatch_anchor (cfg : CacheConfig) (store : Store) (bg : BgMap)
    (req : ClmRequest) (o : Oracle) (uid : Option String) (k : SKey)
    (skey nq2 : String) (aff : Bool) (c : SessionContext)
    (hAt : AtEndP k c store)
    (hbg : bgReady skey bg = false) :
    (currentTopicOf c ≠ "" →
      vagueFollowup1 (currentTopicOf c) nq2 = true →
      (vagueFollowup2 nq2 = true →
        (restDispatch cfg store bg req o uid k skey nq2 false
          aff).debug.searchQuery = some (currentTopicOf c ++ " " ++ nq2))
      ∧ (restDispatch cfg store bg req o uid k skey nq2 false
          aff).debug.teaserConsulted = false
      ∧ ∃ c', lookupS k
          (restDispatch cfg store bg req o uid k skey nq2 false
            aff).store = some c'
        ∧ c'.current_topic_context = c.current_topic_context
        ∧ c'.last_topic = c.last_topic)
    ∧ (currentTopicOf c = "" →
      get_teaser_from_cache cfg nq2 = none →
      ∀ a rest, o.search = some (a :: rest) →
      ∃ c', lookupS k
          (restDispatch cfg store bg req o uid k skey nq2 false
            aff).store = some c'
        ∧ c'.current_topic_context = a.title) := by
  have hlk := atEnd_increment_turn hAt req.session_id
  have hread := topicRead_of_some hlk
  have hct2 : currentTopicOf (if req.session_id = k then c.incTurn else c)
      = currentTopicOf c := by
    by_cases h : req.session_id = k <;> simp [h, currentTopicOf_incTurn]
  have hctc2 : (if req.session_id = k then c.incTurn
      else c).current_topic_context = c.current_topic_context := by
    by_cases h : req.session_id = k <;> simp [h]
  have hlt2 : (if req.session_id = k then c.incTurn else c).last_topic
      = c.last_topic := by
    by_cases h : req.session_id = k <;> simp [h]
  unfold restDispatch
  simp only
  rw [hread.1, hct2]
  constructor
  · intro hx hv1
    simp only [hx, ne_eq, not_false_iff, decide_True, Bool.and_true,
      Bool.not_false, Bool.true_and, hv1, if_true, Bool.or_true,
      Bool.true_or]
    cases hbl : bgLookup skey bg with
    | some e =>
      have hr : e.ready = false := by
        unfold bgReady at hbg
        rw [hbl] at hbg
        exact hbg
      simp only [hr, Bool.false_eq_true, if_false]
      have hanch := searchBranch_anchor
        (get_current_topic k (increment_turn req.session_id store)).2
        bg req o uid k skey nq2 aff _ hread.2
      rw [hct2, hctc2, hlt2] at hanch
      refine ⟨?_, ?_, hanch.2.1 hx⟩
      · intro hv2
        rw [hanch.1]
        simp [hx, hv2]
      · exact (searchBranch_debug _ bg req o uid k skey nq2 aff).2.2.1
    | none =>
      have hanch := searchBranch_anchor
        (get_current_topic k (increment_turn req.session_id store)).2
        bg req o uid k skey nq2 aff _ hread.2
      rw [hct2, hctc2, hlt2] at hanch
      refine ⟨?_, ?_, hanch.2.1 hx⟩
      · intro hv2
        rw [hanch.1]
        simp [hx, hv2]
      · exact (searchBranch_debug _ bg req o uid k skey nq2 aff).2.2.1
  · intro hx0 hteaser a rest hso
    simp only [hx0, ne_eq, not_true, decide_False, Bool.false_and,
      if_false, Bool.or_false, Bool.false_or, hteaser]
    cases hbl : bgLookup skey bg with
    | some e =>
      have hr : e.ready = false := by
        unfold bgReady at hbg
        rw [hbl] at hbg
        exact hbg
      simp only [hr, Bool.false_eq_true, if_false]
      have hanch := searchBranch_anchor
        (get_current_topic k (increment_turn req.session_id store)).2
        bg req o uid k skey nq2 aff _ hread.2
      rw [hct2] at hanch
      exact hanch.2.2 a rest hx0 hso
    | none =>
      have hanch := searchBranch_anchor
        (get_current_topic k (increment_turn req.session_id store)).2
        bg req o uid k skey nq2 aff _ hread.2
      rw [hct2] at hanch
      exact hanch.2.2 a rest hx0 hso

/-- **C5**: with a cached user context and an established topic anchor, a
query the controller recognizes as a vague follow-up skips the teaser
stage, leaves the stored `current_topic_context` and `last_topic` exactly
as they were, and (when the second vagueness test also fires) sends the
anchor prepended to the normalized query to the search engine; when no
anchor existed and the teaser cache misses, a search hit installs the top
result's title as the new anchor. -/
theorem topic_anchor_follow_up (cfg : CacheConfig) (store : Store)
    (bg : BgMap) (req : ClmRequest) (o : Oracle) (c : SessionContext)
    (hsome : lookupS (mainKey req.session_id) store = some c)
    (hcf : c.context_fetched = true)
    (hnoise : isNoiseB (cleanqOf req) = false)
    (hrosie : isSubstr "rosie" (pyLower (cleanqOf req)) = false)
    (hgreet : isGreetingRequest req.user_msg (nlowOf req) = false)
    (hnameq : name_questions.any
      (fun q => isSubstr q (pyLower (cleanqOf req))) = false)
    (hidq : identity_keywords.any
      (fun q => isSubstr q (pyLower (cleanqOf req))) = false)
    (haff : isAffirmationB (nlowOf req) = false)
    (hbg : bgReady (orDefaultS req.session_id) bg = false) :
    (currentTopicOf c ≠ "" →
      vagueFollowup1 (currentTopicOf c) (cleanqOf req) = true →
      (vagueFollowup2 (cleanqOf req) = true →
        (clmStep cfg store bg req o).debug.searchQuery
          = some (currentTopicOf c ++ " " ++ cleanqOf req))
      ∧ (clmStep cfg store bg req o).debug.teaserConsulted = false
      ∧ ∃ c', lookupS (mainKey req.session_id)
            (clmStep cfg store bg req o).store = some c'
          ∧ c'.current_topic_context = c.current_topic_context
          ∧ c'.last_topic = c.last_topic)
    ∧ (currentTopicOf c = "" →
      get_teaser_from_cache cfg (cleanqOf req) = none →
      ∀ a rest, o.search = some (a :: rest) →
      ∃ c', lookupS (mainKey req.session_id)
            (clmStep cfg store bg req o).store = some c'
          ∧ c'.current_topic_context = a.title) := by
  obtain ⟨hst, hun, huc⟩ := fetchStage_fetched_fields (o := o) hsome hcf
  have hAt := (atEnd_getOrCreate_of_some hsome).2
  have hpip := restPipeline_no_affirm cfg
    (getOrCreate (mainKey req.session_id) store).2 bg req o
    (if tS c.user_name && !tS (resolvedName req) then c.user_name
     else resolvedName req) c.user_context
    hnoise hrosie hgreet hnameq hidq haff
  have hdisp := restDispatch_anchor cfg
    (getOrCreate (mainKey req.session_id) store).2 bg req o
    (extractUserId req.session_id) (mainKey req.session_id)
    (orDefaultS req.session_id) (cleanqOf req) false c hAt hbg
  have hdbg := (clmStep_debug_eq cfg store bg req o).1
  have hstore := (clmStep_store_eq cfg store bg req o).1
  rw [hst, hun, huc, hpip] at hdbg hstore
  constructor
  · intro hx hv1
    obtain ⟨h1, h2, h3⟩ := hdisp.1 hx hv1
    refine ⟨fun hv2 => by rw [hdbg]; exact h1 hv2, by rw [hdbg]; exact h2,
      ?_⟩
    obtain ⟨c', hc', he1, he2⟩ := h3
    exact ⟨c', by rw [hstore]; exact hc', he1, he2⟩
  · intro hx0 ht a rest hso
    obtain ⟨c', hc', he⟩ := hdisp.2 hx0 ht a rest hso
    exact ⟨c', by rw [hstore]; exact hc', he⟩

theorem topic_anchor_follow_up_witness :
    (clmStep {} [(some "default",
        { current_topic_context := "Royal Aquarium",
          context_fetched := true })]
      [] { user_msg := "what happened to it" }
      { search := some [{ title := "Royal Aquarium" }],
        search_llm := some "It burned down." }).debug.searchQuery
      = some "Royal Aquarium what happened to it"
    ∧ (lookupS (some "default")
        (clmStep {} [(some "default", { context_fetched := true })]
          [] { user_msg := "royal aquarium history" }
          { search := some [{ title := "Royal Aquarium" }],
            search_llm := some "It burned down." }).store).map
        (fun c => c.current_topic_context) = some "Royal Aquarium" := by
  have h1 := topic_anchor_follow_up {}
    [(some "default",
      { current_topic_context := "Royal Aquarium", context_fetched := true })]
    [] { user_msg := "what happened to it" }
    { search := some [{ title := "Royal Aquarium" }],
      search_llm := some "It burned down." }
    { current_topic_context := "Royal Aquarium", context_fetched := true }
    (by decide) (by decide) (by decide) (by decide) (by decide) (by decide)
    (by decide) (by decide) (by decide)
  have h2 := topic_anchor_follow_up {}
    [(some "default", { context_fetched := true })]
    [] { user_msg := "royal aquarium history" }
    { search := some [{ title := "Royal Aquarium" }],
      search_llm := some "It burned down." }
    { context_fetched := true }
    (by decide) (by decide) (by decide) (by decide) (by decide) (by decide)
    (by decide) (by decide) (by decide)
  constructor
  · exact ((h1.1 (by decide) (by decide)).1 (by decide))
  · obtain ⟨c', hc', he⟩ := h2.2 (by decide) (by decide)
      { title := "Royal Aquarium" } [] rfl
    have hc2 : lookupS (some "default")
        (clmStep {} [(some "default", { context_fetched := true })]
          [] { user_msg := "royal aquarium history" }
          { search := some [{ title := "Royal Aquarium" }],
            search_llm := some "It burned down." }).store = some c' := hc'
    rw [hc2]
    simp [he]

/-! ### Claim C8 — word-budget truncation -/

/-- "ends at a sentence boundary": final character is `.`, `!` or `?`. -/
def endsSentence (t : String) : Bool :=
  match t.data.getLast? with
  | some c => c = '.' || c = '!' || c = '?'
  | none => false

theorem rfindAux_spec (c : Char) (l : List Char) :
    ∀ i, rfindAux c l = some i →
      ∃ h : i < l.length, l.get ⟨i, h⟩ = c := by
  induction l with
  | nil =>
    intro i h
    simp [rfindAux] at h
  | cons d rest ih =>
    intro i h
    unfold rfindAux at h
    cases hr : rfindAux c rest with
    | some j =>
      rw [hr] at h
      injection h with h
      subst h
      obtain ⟨hlt, hget⟩ := ih j hr
      exact ⟨by simpa using Nat.succ_lt_succ hlt, by simpa using hget⟩
    | none =>
      rw [hr] at h
      by_cases hd : d = c
      · rw [if_pos hd] at h
        injection h with h
        subst h
        exact ⟨by simp, hd⟩
      · rw [if_neg hd] at h
        exact absurd h (by simp)

theorem rfindAux_ge (c : Char) (l : List Char) :
    ∀ j (h : j < l.length), l.get ⟨j, h⟩ = c →
      ∃ i, rfindAux c l = some i ∧ j ≤ i := by
  induction l with
  | nil =>
    intro j h
    simp at h
  | cons d rest ih =>
    intro j h hget
    cases j with
    | zero =>
      cases hr : rfindAux c rest with
      | some i =>
        exact ⟨i + 1, by simp [rfindAux, hr], Nat.zero_le _⟩
      | none =>
        refine ⟨0, ?_, Nat.le_refl 0⟩
        have hd : d = c := by simpa using hget
        simp [rfindAux, hr, hd]
    | succ j' =>
      have hj' : j' < rest.length := by simpa using h
      have hg' : rest.get ⟨j', hj'⟩ = c := by simpa using hget
      obtain ⟨i, hi, hle⟩ := ih j' hj' hg'
      exact ⟨i + 1, by simp [rfindAux, hi], Nat.succ_le_succ hle⟩

theorem pyRfind_ge (t : String) (c : Char) (j : Nat) (h : j < t.data.length)
    (hget : t.data.get ⟨j, h⟩ = c) : (j : Int) ≤ pyRfind t c := by
  obtain ⟨i, hi, hle⟩ := rfindAux_ge c t.data j h hget
  unfold pyRfind
  rw [hi]
  show (j : Int) ≤ (i : Int)
  exact_mod_cast hle

theorem pyRfind_nonneg_spec (t : String) (c : Char) (h : 0 ≤ pyRfind t c) :
    ∃ i : Nat, (i : Int) = pyRfind t c ∧ ∃ hlt : i < t.data.length,
      t.data.get ⟨i, hlt⟩ = c := by
  unfold pyRfind at h ⊢
  cases hr : rfindAux c t.data with
  | none =>
    rw [hr] at h
    norm_num at h
  | some i =>
    obtain ⟨hlt, hget⟩ := rfindAux_spec c t.data i hr
    refine ⟨i, ?_, hlt, hget⟩
    rfl

theorem getLast?_take_succ (l : List Char) (i : Nat) (h : i < l.length) :
    (l.take (i + 1)).getLast? = l[i]? := by
  rw [List.getLast?_eq_getElem?]
  have hlen : (l.take (i + 1)).length = i + 1 := by
    rw [List.length_take]
    omega
  rw [hlen]
  simp only [Nat.add_sub_cancel]
  rw [List.getElem?_take]
  rw [if_pos (by omega)]

theorem pySplitWsAux_ne_nil (l : List Char) :
    ∀ acc w, w ∈ pySplitWsAux l acc → w.data ≠ [] := by
  induction l with
  | nil =>
    intro acc w hw
    unfold pySplitWsAux at hw
    by_cases ha : acc.isEmpty
    · simp [ha] at hw
    · rw [if_neg ha] at hw
      have : w = (⟨acc.reverse⟩ : String) := by simpa using hw
      subst this
      simp only
      intro hc
      rw [List.reverse_eq_nil_iff] at hc
      rw [hc] at ha
      exact ha rfl
  | cons d rest ih =>
    intro acc w hw
    unfold pySplitWsAux at hw
    by_cases hws : isPyWs d
    · rw [if_pos hws] at hw
      by_cases ha : acc.isEmpty
      · rw [if_pos ha] at hw
        exact ih [] w hw
      · rw [if_neg ha] at hw
        rcases List.mem_cons.mp hw with hh | ht
        · subst hh
          simp only
          intro hc
          rw [List.reverse_eq_nil_iff] at hc
          rw [hc] at ha
          exact ha rfl
        · exact ih [] w ht
    · rw [if_neg hws] at hw
      exact ih (d :: acc) w hw

theorem pySplitWs_ne_nil (s : String) :
    ∀ w ∈ pySplitWs s, w.data ≠ [] := by
  intro w hw
  exact pySplitWsAux_ne_nil s.data [] w hw

theorem data_append (a b : String) : (a ++ b).data = a.data ++ b.data := rfl

theorem joinSp_length (ws : List String) (h : ∀ w ∈ ws, w.data ≠ []) :
    2 * ws.length - 1 ≤ (joinSp ws).data.length := by
  induction ws with
  | nil => simp [joinSp, joinWith]
  | cons x rest ih =>
    cases rest with
    | nil =>
      have hx : x.data ≠ [] := h x (List.mem_cons_self x [])
      have : 1 ≤ x.data.length := by
        cases hd : x.data with
        | nil => exact absurd hd hx
        | cons a t => simp
      simpa [joinSp, joinWith] using this
    | cons y rest2 =>
      have hx : x.data ≠ [] := h x (List.mem_cons_self x _)
      have hx1 : 1 ≤ x.data.length := by
        cases hd : x.data with
        | nil => exact absurd hd hx
        | cons a t => simp
      have htail := ih (fun w hw => h w (List.mem_cons_of_mem x hw))
      have hev : joinSp (x :: y :: rest2) = x ++ " " ++ joinSp (y :: rest2) :=
        rfl
      rw [hev, data_append, data_append]
      simp only [List.length_append, List.length_cons]
      simp only [joinSp, List.length_cons] at htail ⊢
      omega

theorem lastBoundary_cases (t : String) :
    lastBoundary t = pyRfind t '.' ∨ lastBoundary t = pyRfind t '!'
      ∨ lastBoundary t = pyRfind t '?' := by
  unfold lastBoundary
  rcases max_cases (pyRfind t '.')
    (max (pyRfind t '!') (pyRfind t '?')) with ⟨h, _⟩ | ⟨h, _⟩
  · exact Or.inl h
  · rcases max_cases (pyRfind t '!') (pyRfind t '?') with ⟨h2, _⟩ | ⟨h2, _⟩
    · exact Or.inr (Or.inl (h.trans h2))
    · exact Or.inr (Or.inr (h.trans h2))

theorem rfindQ_le_lastBoundary (t : String) :
    pyRfind t '?' ≤ lastBoundary t := by
  unfold lastBoundary
  exact le_trans (le_max_right _ _) (le_max_right _ _)

theorem rfind_ge_of_contains_takeRight (t : String) (c : Char) (n : Nat)
    (h : containsC (pyTakeRight t n) c = true) :
    (t.data.length : Int) - (n : Int) ≤ pyRfind t c := by
  unfold containsC pyTakeRight at h
  have hmem : c ∈ t.data.drop (t.data.length - n) := by
    simpa using h
  obtain ⟨j, hj, hget⟩ := List.getElem_of_mem hmem
  have hlt : t.data.length - n + j < t.data.length := by
    rw [List.length_drop] at hj
    omega
  rw [List.getElem_drop] at hget
  have hg2 : t.data.get ⟨t.data.length - n + j, hlt⟩ = c := by
    simp only [List.get_eq_getElem]
    exact hget
  have := pyRfind_ge t c (t.data.length - n + j) hlt hg2
  have hcast : ((t.data.length - n + j : Nat) : Int)
      ≥ (t.data.length : Int) - (n : Int) := by
    omega
  omega

theorem endsSentence_of_last (t : String) (c0 : Char)
    (h : t.data.getLast? = some c0)
    (hc : c0 = '.' ∨ c0 = '!' ∨ c0 = '?') :
    endsSentence t = true := by
  unfold endsSentence
  rw [h]
  rcases hc with rfl | rfl | rfl <;> rfl

theorem endsSentence_append_q (t f : String)
    (hf : f.data.getLast? = some '?') :
    endsSentence (t ++ f) = true := by
  have hne : f.data ≠ [] := by
    intro h0
    rw [h0] at hf
    simp at hf
  apply endsSentence_of_last _ '?'
  · rw [data_append]
    rw [List.getLast?_append_of_ne_nil _ hne]
    exact hf
  · exact Or.inr (Or.inr rfl)

theorem cut_last (t : String) (c0 : Char) (h0 : 0 ≤ pyRfind t c0) :
    (pyTake t (pyRfind t c0 + 1).toNat).data.getLast? = some c0 := by
  obtain ⟨i, hi, hlt, hget⟩ := pyRfind_nonneg_spec t c0 h0
  unfold pyTake
  simp only
  rw [← hi]
  have htn : ((i : Int) + 1).toNat = i + 1 := by omega
  rw [htn]
  rw [getLast?_take_succ t.data i hlt]
  rw [List.getElem?_eq_getElem hlt]
  simp only [List.get_eq_getElem] at hget
  rw [hget]

theorem budgetCut_ends (keep : Nat) (minPos : Int) (s : String)
    (hm : 0 ≤ minPos)
    (h : minPos < lastBoundary (joinSp ((pySplitWs s).take keep))) :
    endsSentence (budgetCut keep minPos s) = true := by
  unfold budgetCut
  simp only
  rw [if_pos h]
  have h0 : 0 ≤ lastBoundary (joinSp ((pySplitWs s).take keep)) :=
    le_trans hm (le_of_lt h)
  rcases lastBoundary_cases (joinSp ((pySplitWs s).take keep))
    with hb | hb | hb
  · rw [hb] at h0 ⊢
    exact endsSentence_of_last _ '.' (cut_last _ '.' h0) (Or.inl rfl)
  · rw [hb] at h0 ⊢
    exact endsSentence_of_last _ '!' (cut_last _ '!' h0)
      (Or.inr (Or.inl rfl))
  · rw [hb] at h0 ⊢
    exact endsSentence_of_last _ '?' (cut_last _ '?' h0)
      (Or.inr (Or.inr rfl))

theorem truncateSearch_ends (s : String)
    (h100 : 100 < (pySplitWs s).length) :
    endsSentence (truncateSearch s) = true := by
  unfold truncateSearch
  rw [if_pos h100]
  have hlen : 159 ≤ (joinSp ((pySplitWs s).take 80)).data.length := by
    have hwords : ∀ w ∈ (pySplitWs s).take 80, w.data ≠ [] :=
      fun w hw => pySplitWs_ne_nil s w (List.mem_of_mem_take hw)
    have htk : ((pySplitWs s).take 80).length = 80 := by
      rw [List.length_take]
      omega
    have hj := joinSp_length ((pySplitWs s).take 80) hwords
    rw [htk] at hj
    omega
  by_cases hlp : (50 : Int) < lastBoundary (joinSp ((pySplitWs s).take 80))
  · have hcut := budgetCut_ends 80 50 s (by norm_num) hlp
    unfold maybeFollowup
    by_cases hq : containsC (pyTakeRight (budgetCut 80 50 s) 30) '?' = true
    · rw [hq]
      simp only [Bool.not_true, Bool.false_eq_true, if_false]
      exact hcut
    · have hq2 : containsC (pyTakeRight (budgetCut 80 50 s) 30) '?'
          = false := by
        rwa [Bool.not_eq_true] at hq
      rw [hq2]
      simp only [Bool.not_false, if_true]
      exact endsSentence_append_q _ _ (by decide)
  · have hb : budgetCut 80 50 s = joinSp ((pySplitWs s).take 80) := by
      unfold budgetCut
      simp only
      rw [if_neg hlp]
    unfold maybeFollowup
    rw [hb]
    have hq : containsC
        (pyTakeRight (joinSp ((pySplitWs s).take 80)) 30) '?' = false := by
      by_contra hc
      have hc2 : containsC
          (pyTakeRight (joinSp ((pySplitWs s).take 80)) 30) '?' = true := by
        rwa [Bool.not_eq_false] at hc
      have h1 := rfind_ge_of_contains_takeRight
        (joinSp ((pySplitWs s).take 80)) '?' 30 hc2
      have h2 := rfindQ_le_lastBoundary (joinSp ((pySplitWs s).take 80))
      have h3 : (159 : Int)
          ≤ ((joinSp ((pySplitWs s).take 80)).data.length : Int) := by
        exact_mod_cast hlen
      omega
    rw [hq]
    simp only [Bool.not_false, if_true]
    exact endsSentence_append_q _ _ (by decide)

theorem truncatePrefetch_ends (s : String)
    (h80 : 80 < (pySplitWs s).length) :
    endsSentence (truncatePrefetch s) = true := by
  unfold truncatePrefetch
  rw [if_pos h80]
  have hlen : 139 ≤ (joinSp ((pySplitWs s).take 70)).data.length := by
    have hwords : ∀ w ∈ (pySplitWs s).take 70, w.data ≠ [] :=
      fun w hw => pySplitWs_ne_nil s w (List.mem_of_mem_take hw)
    have htk : ((pySplitWs s).take 70).length = 70 := by
      rw [List.length_take]
      omega
    have hj := joinSp_length ((pySplitWs s).take 70) hwords
    rw [htk] at hj
    omega
  by_cases hlp : (40 : Int) < lastBoundary (joinSp ((pySplitWs s).take 70))
  · have hcut := budgetCut_ends 70 40 s (by norm_num) hlp
    unfold maybeFollowup
    by_cases hq : containsC (pyTakeRight (budgetCut 70 40 s) 30) '?' = true
    · rw [hq]
      simp only [Bool.not_true, Bool.false_eq_true, if_false]
      exact hcut
    · have hq2 : containsC (pyTakeRight (budgetCut 70 40 s) 30) '?'
          = false := by
        rwa [Bool.not_eq_true] at hq
      rw [hq2]
      simp only [Bool.not_false, if_true]
      exact endsSentence_append_q _ _ (by decide)
  · have hb : budgetCut 70 40 s = joinSp ((pySplitWs s).take 70) := by
      unfold budgetCut
      simp only
      rw [if_neg hlp]
    unfold maybeFollowup
    rw [hb]
    have hq : containsC
        (pyTakeRight (joinSp ((pySplitWs s).take 70)) 30) '?' = false := by
      by_contra hc
      have hc2 : containsC
          (pyTakeRight (joinSp ((pySplitWs s).take 70)) 30) '?' = true := by
        rwa [Bool.not_eq_false] at hc
      have h1 := rfind_ge_of_contains_takeRight
        (joinSp ((pySplitWs s).take 70)) '?' 30 hc2
      have h2 := rfindQ_le_lastBoundary (joinSp ((pySplitWs s).take 70))
      have h3 : (139 : Int)
          ≤ ((joinSp ((pySplitWs s).take 70)).data.length : Int) := by
        exact_mod_cast hlen
      omega
    rw [hq]
    simp only [Bool.not_false, if_true]
    exact endsSentence_append_q _ _ (by decide)

set_option maxRecDepth 10000 in
theorem truncation_followup_cex :
    100 < (pySplitWs (joinSp (List.replicate 77 "aa"
      ++ ["Is", "it?", "Yes."] ++ List.replicate 21 "bb"))).length
    ∧ (truncateSearch (joinSp (List.replicate 77 "aa"
      ++ ["Is", "it?", "Yes."] ++ List.replicate 21 "bb"))).data.getLast?
      = some '.'
    ∧ truncateSearch (joinSp (List.replicate 77 "aa"
      ++ ["Is", "it?", "Yes."] ++ List.replicate 21 "bb"))
      = budgetCut 80 50 (joinSp (List.replicate 77 "aa"
      ++ ["Is", "it?", "Yes."] ++ List.replicate 21 "bb")) := by
  refine ⟨by decide, by decide, by decide⟩

/-- **C8** (amended): responses within the word budget pass through both
truncation blocks unchanged, and every over-budget response comes out
ending in `.`, `!` or `?` — at a sentence boundary when one lies past the
minimum position, otherwise via the appended follow-up question.  The
spec's appending rule is wrong, however: the code appends the follow-up
only when `?` is absent from the final 30 characters, not when the cut
text fails to end with a question — `truncation_followup_cex` is an
over-budget response whose truncation ends in `.` (no question) yet
receives no follow-up, because a `?` occurs shortly before the cut. -/
theorem truncation_amended (s : String) :
    (¬ 100 < (pySplitWs s).length → truncateSearch s = s)
    ∧ (100 < (pySplitWs s).length →
        endsSentence (truncateSearch s) = true)
    ∧ (¬ 80 < (pySplitWs s).length → truncatePrefetch s = s)
    ∧ (80 < (pySplitWs s).length →
        endsSentence (truncatePrefetch s) = true) := by
  refine ⟨?_, truncateSearch_ends s, ?_, truncatePrefetch_ends s⟩
  · intro h
    unfold truncateSearch
    rw [if_neg h]
  · intro h
    unfold truncatePrefetch
    rw [if_neg h]

set_option maxRecDepth 10000 in
theorem truncation_amended_witness :
    truncateSearch "A short answer." = "A short answer."
    ∧ endsSentence (truncateSearch (joinSp (List.replicate 101 "word")))
        = true := by
  have h1 := truncation_amended "A short answer."
  have h2 := truncation_amended (joinSp (List.replicate 101 "word"))
  exact ⟨h1.1 (by decide), h2.2.1 (by decide)⟩
